import Mathlib

/-!
Verification of the diary-cli core: a shallow embedding of the lazy_db
container store, the ordered-list codec (src/src/list.rs), the archive
backup/rollback and commit protocols (src/src/archive.rs), the lazy
entity model (src/src/moc.rs, src/src/entry/section.rs) and the export
selection logic (src/src/export.rs), together with proofs of the
specified properties.
-/

set_option autoImplicit false

namespace DiaryCli

/-! ## The container store (lazy_db collaborator)

lazy_db stores typed leaf values (u16, u64, UTF-8 strings) in files and
nests containers as directories.  We model a container as an association
list from file/dir names to entries, where writing a key prepends it
(the newest write shadows older ones, exactly like overwriting a file).
-/

/-- A typed leaf value of the lazy_db store (`LazyData` in the source). -/
inductive LazyData where
  | u16 : Nat → LazyData
  | u64 : Nat → LazyData
  | str : String → LazyData
deriving DecidableEq, Repr

/-- Errors surfaced by the lazy_db collaborator (`LDBError` in the source). -/
inductive LDBError where
  | fileNotFound : String → LDBError
  | dirNotFound : String → LDBError
  | incorrectType : String → LDBError
deriving DecidableEq, Repr

mutual

/-- One named slot of a container: either a data file or a sub-container. -/
inductive LazyEntry where
  | data : LazyData → LazyEntry
  | cont : LazyContainer → LazyEntry

/-- A lazy_db container: named data files and named child containers.
The newest write of a name is the first entry carrying that name. -/
inductive LazyContainer where
  | mk : List (String × LazyEntry) → LazyContainer

end

/-- The entry list of a container. -/
def LazyContainer.entries : LazyContainer → List (String × LazyEntry)
  | .mk es => es

/-- Writing a data value stores it under the given name, shadowing any
previous entry of that name (`container.data_writer(key)` followed by the
`LazyData::new_*` write in the source). -/
def write_data (c : LazyContainer) (k : String) (d : LazyData) : LazyContainer :=
  .mk ((k, .data d) :: c.entries)

/-- Writing back a child container under the given name. -/
def write_child (c : LazyContainer) (k : String) (sub : LazyContainer) : LazyContainer :=
  .mk ((k, .cont sub) :: c.entries)

/-- Reading a data value by name (`container.read_data(key)` in the source):
fails if the name is absent or names a sub-container. -/
def read_data (c : LazyContainer) (k : String) : Except LDBError LazyData :=
  match c.entries.find? (fun p => p.1 == k) with
  | some (_, .data d) => .ok d
  | some (_, .cont _) => .error (.fileNotFound k)
  | none => .error (.fileNotFound k)

/-- Opening an existing child container (`container.child_container(name)`). -/
def child_container (c : LazyContainer) (k : String) : Except LDBError LazyContainer :=
  match c.entries.find? (fun p => p.1 == k) with
  | some (_, .cont sub) => .ok sub
  | some (_, .data _) => .error (.dirNotFound k)
  | none => .error (.dirNotFound k)

/-- Opening a child container, creating an empty one when absent
(`container.new_container(name)` in the source: it creates the directory
when missing and opens it otherwise). -/
def new_container (c : LazyContainer) (k : String) : LazyContainer :=
  match child_container c k with
  | .ok sub => sub
  | .error _ => .mk []

/-- Decoding a u16 data file (`LazyData::collect_u16`). -/
def collect_u16 (d : LazyData) : Except LDBError Nat :=
  match d with
  | .u16 v => .ok v
  | _ => .error (.incorrectType "u16")

/-- Decoding a u64 data file (`LazyData::collect_u64`). -/
def collect_u64 (d : LazyData) : Except LDBError Nat :=
  match d with
  | .u64 v => .ok v
  | _ => .error (.incorrectType "u64")

/-- Decoding a string data file (`LazyData::collect_string`). -/
def collect_string (d : LazyData) : Except LDBError String :=
  match d with
  | .str s => .ok s
  | _ => .error (.incorrectType "string")

/-! ## Decimal rendering of indices

The list codec addresses children by `i.to_string()`; we embed Rust's
`usize::to_string` as the decimal rendering of a natural number. -/

/-- Rust's `usize::to_string`: the decimal representation of a natural. -/
def natToString (n : Nat) : String :=
  if n = 0 then "0" else ⟨((Nat.digits 10 n).map Nat.digitChar).reverse⟩

/-! ## The ordered-list codec (src/src/list.rs) -/

namespace list

/-- src/src/list.rs `write`: writes every element of the list to the child
key given by its index, then writes the `length` field (`list.len() as u16`,
a truncating cast). -/
def write {α : Type} (l : List α) (f : α → LazyData) (container : LazyContainer) : LazyContainer :=
  let c := l.enum.foldl (fun c p => write_data c (natToString p.1) (f p.2)) container
  write_data c "length" (.u16 (l.length % 65536))

/-- src/src/list.rs `push`: reads the current `length`, writes the new value
at the key given by the current length, then writes `length + 1` (u16
arithmetic). -/
def push (f : LazyData) (container : LazyContainer) : Except LDBError LazyContainer := do
  let d ← read_data container "length"
  let length ← collect_u16 d
  let c := write_data container (natToString length) f
  pure (write_data c "length" (.u16 ((length + 1) % 65536)))

/-- src/src/list.rs `read`: reads `length` then decodes every child key
`0..length` in order; any missing child or decode failure is fatal. -/
def read {α : Type} (f : LazyData → Except LDBError α) (container : LazyContainer) :
    Except LDBError (List α) := do
  let d ← read_data container "length"
  let length ← collect_u16 d
  (List.range length).mapM (fun i => do f (← read_data container (natToString i)))

/-- K sequential pushes, in order of the list. -/
def pushN (vs : List LazyData) (container : LazyContainer) : Except LDBError LazyContainer :=
  match vs with
  | [] => .ok container
  | v :: rest =>
    match push v container with
    | .ok c' => pushN rest c'
    | .error e => .error e

end list

/-! ## The Archive (src/src/archive.rs): load and backup/rollback -/

/-- The in-memory archive handle (struct `Archive` in src/src/archive.rs):
the database tree plus the `uid` and `itver` read at load. -/
structure Archive where
  database : LazyContainer
  uid : Nat
  itver : Nat

/-- src/src/archive.rs `Archive::load_dir`: opens the container and reads
`uid` (u64) and `itver` (u16); any read failure is fatal for the calling
command.  The directory-missing auto-init branch is handled by callers. -/
def Archive.load_dir (c : LazyContainer) : Except LDBError Archive := do
  let uid ← collect_u64 (← read_data c "uid")
  let itver ← collect_u16 (← read_data c "itver")
  pure { database := c, uid := uid, itver := itver }

/-- Crash reasons of `Archive::load_backup`. -/
inductive BackupCrash where
  | backupFileMissing
  | loadError : LDBError → BackupCrash
  | uidMismatch
  | itverOlder
deriving DecidableEq, Repr

/-- src/src/archive.rs `Archive::load_backup`: takes the backup file
contents (None when the file does not exist) and the archive tree at the
home location (None when no archive directory exists), and returns the
archive tree persisted at the home location after the call, together
with the crash reason when the command crashed (`none` means success).
Decompiling the backup into the temporary location and deleting it again
leaves no lasting state and is not represented; the same-age warning
(equal `itver`, no `force`) does not change control flow. -/
def Archive.load_backup (backupFile : Option LazyContainer) (archive : Option LazyContainer)
    (force : Bool) : Option LazyContainer × Option BackupCrash :=
  match backupFile with
  | none => (archive, some .backupFileMissing)
  | some bc =>
    match archive with
    | some ac =>
      match Archive.load_dir ac with
      | .error e => (archive, some (.loadError e))
      | .ok old =>
        match Archive.load_dir bc with
        | .error e => (archive, some (.loadError e))
        | .ok new =>
          if new.uid ≠ old.uid ∧ force = false then (archive, some .uidMismatch)
          else if old.itver > new.itver ∧ force = false then (archive, some .itverOlder)
          else (some bc, none)
    | none => (some bc, none)

/-! ## The parsed configuration record (toml collaborator) -/

/-- A parsed toml value, as produced by the external toml parser and
consumed by the commit protocol (spec section 6: string, boolean, integer,
array of values, string-keyed table). -/
inductive Toml where
  | str : String → Toml
  | bool : Bool → Toml
  | int : Int → Toml
  | arr : List Toml → Toml
  | table : List (String × Toml) → Toml

/-- `Table::get` of the toml collaborator. -/
def Toml.get (t : Toml) (k : String) : Option Toml :=
  match t with
  | .table kvs => (kvs.find? (fun p => p.1 == k)).map (fun p => p.2)
  | _ => none

def Toml.as_str : Toml → Option String
  | .str s => some s
  | _ => none

def Toml.as_bool : Toml → Option Bool
  | .bool b => some b
  | _ => none

def Toml.as_array : Toml → Option (List Toml)
  | .arr l => some l
  | _ => none

def Toml.is_table : Toml → Bool
  | .table _ => true
  | _ => false

def Toml.as_integer : Toml → Option Int
  | .int i => some i
  | _ => none

/-- Errors that terminate a commit: the crash taxonomy of the command. -/
inductive CommitError where
  | archiveMissing
  | configMissing
  | backupFailed
  | validation : String → CommitError
  | storage : LDBError → CommitError
deriving DecidableEq, Repr

/-- The `get!`/`unwrap_opt!` pattern for a required attribute: crashes the
command when the attribute is missing. -/
def get_attr (t : Toml) (k : String) : Except CommitError Toml :=
  match t.get k with
  | none => .error (.validation (k ++ " attribute missing"))
  | some v => .ok v

/-- Required string attribute (missing or mistyped is fatal). -/
def get_str (t : Toml) (k : String) : Except CommitError String :=
  match t.get k with
  | none => .error (.validation (k ++ " attribute missing"))
  | some v =>
    match v.as_str with
    | none => .error (.validation (k ++ " attribute must be of correct type"))
    | some s => .ok s

/-- Required table attribute, returned as the (table) toml value. -/
def get_table (t : Toml) (k : String) : Except CommitError Toml :=
  match t.get k with
  | none => .error (.validation (k ++ " attribute missing"))
  | some v => if v.is_table then .ok v else .error (.validation (k ++ " attribute must be of correct type"))

/-- Required array attribute. -/
def get_array (t : Toml) (k : String) : Except CommitError (List Toml) :=
  match t.get k with
  | none => .error (.validation (k ++ " attribute missing"))
  | some v =>
    match v.as_array with
    | none => .error (.validation (k ++ " attribute must be of correct type"))
    | some l => .ok l

/-- Optional array attribute with an empty default (the
`get!(var = key ... or default)` form used for notes). -/
def get_array_opt (t : Toml) (k : String) : Except CommitError (List Toml) :=
  match t.get k with
  | none => .ok []
  | some v =>
    match v.as_array with
    | none => .error (.validation (k ++ " attribute must be of correct type"))
    | some l => .ok l

/-- The `unpack_array!` macro over string elements: every element must be
a string, otherwise the command crashes. -/
def unpack_strings (l : List Toml) (msg : String) : Except CommitError (List String) :=
  l.mapM (fun v =>
    match v.as_str with
    | some s => Except.ok s
    | none => Except.error (.validation msg))

/-- Unpacking an array of integers into u16 values; an element that is
not an integer in u16 range is a validation failure. -/
def unpack_u16s (l : List Toml) (msg : String) : Except CommitError (List Nat) :=
  l.mapM (fun v =>
    match v.as_integer with
    | some i => if 0 ≤ i ∧ i < 65536 then Except.ok i.toNat else Except.error (.validation msg)
    | none => Except.error (.validation msg))

/-! ## Lazy entities: Collection, MOC, Section, Entry -/

/-- A MOC collection (src/src/moc/collection.rs, which is not under
src/): per the spec (sections 3 and 6) it holds a container handle and
the lazily cached attributes title, ordered notes and an `include` tag
set. -/
structure Collection where
  container : LazyContainer
  title : Option String
  notes : Option (List String)
  include_tags : Option (List String)

/-- Modelled from the spec: src/src/moc/collection.rs is not under src/.
`Collection::store_lazy` writes every currently cached attribute into the
collection's container, in the same shape as `Section::store_lazy`
(src/src/entry/section.rs). -/
def Collection.store_lazy (s : Collection) : LazyContainer :=
  let c := s.container
  let c := match s.title with
    | some x => write_data c "title" (.str x)
    | none => c
  let c := match s.notes with
    | some x => write_child c "notes" (list.write x LazyData.str (new_container c "notes"))
    | none => c
  let c := match s.include_tags with
    | some x => write_child c "include" (list.write x LazyData.str (new_container c "include"))
    | none => c
  c

/-- Modelled from the spec: src/src/moc/collection.rs is not under src/.
`Collection::new` validates `title` (string), optional `notes` (array of
strings) and `include` (array of strings) from the collection's toml
table, writes them into the collection's container, clears the cache and
returns the collection (mirroring `Section::new`). -/
def Collection.new (t : Toml) (container : LazyContainer) :
    Except CommitError (Collection × LazyContainer) := do
  let title ← get_str t "title"
  let raw_notes ← get_array_opt t "notes"
  let raw_include ← get_array t "include"
  let notes ← unpack_strings raw_notes "all notes in a collection must be strings"
  let inc ← unpack_strings raw_include "all include tags in a collection must be strings"
  let this : Collection :=
    { container := container, title := some title, notes := some notes, include_tags := some inc }
  let stored := this.store_lazy
  pure ({ container := stored, title := none, notes := none, include_tags := none }, stored)

/-- struct `MOC` (src/src/moc.rs): the container handle and the lazy
attribute cache. -/
structure MOC where
  container : LazyContainer
  uid : String
  title : Option String
  description : Option String
  notes : Option (List String)
  tags : Option (List String)
  collections : Option (List Collection)

/-- src/src/moc.rs `MOC::store_lazy`: writes the cached title,
description, notes and tags back into the container; absent (unloaded)
attributes are skipped.  The `collections` cache is not written. -/
def MOC.store_lazy (m : MOC) : LazyContainer :=
  let c := m.container
  let c := match m.title with
    | some x => write_data c "title" (.str x)
    | none => c
  let c := match m.description with
    | some x => write_data c "description" (.str x)
    | none => c
  let c := match m.notes with
    | some x => write_child c "notes" (list.write x LazyData.str (new_container c "notes"))
    | none => c
  let c := match m.tags with
    | some x => write_child c "tags" (list.write x LazyData.str (new_container c "tags"))
    | none => c
  c

/-- src/src/moc.rs `MOC::load_lazy`: a loaded MOC starts with every
attribute unloaded. -/
def MOC.load_lazy (uid : String) (container : LazyContainer) : MOC :=
  { container := container
    uid := uid
    title := none
    description := none
    notes := none
    tags := none
    collections := none }

/-- src/src/moc.rs `MOC::clear_cache`. -/
def MOC.clear_cache (m : MOC) : MOC :=
  { m with title := none, description := none, notes := none, tags := none, collections := none }

/-- Writing the collections of a new MOC one by one (the `unpack_array!`
loop in `MOC::new`): each element must be a toml table and is written via
`Collection::new` into the child container of its index. -/
def write_collections : List Toml → Nat → LazyContainer →
    (Except CommitError (List Collection)) × LazyContainer
  | [], _, clist => (.ok [], clist)
  | x :: rest, idx, clist =>
    if x.is_table then
      match Collection.new x (new_container clist (natToString idx)) with
      | .error e => (.error e, clist)
      | .ok (col, ccont) =>
        match write_collections rest (idx + 1) (write_child clist (natToString idx) ccont) with
        | (.error e, clist') => (.error e, clist')
        | (.ok cols, clist') => (.ok (col :: cols), clist')
    else (.error (.validation "collection must be a toml table"), clist)

/-- src/src/moc.rs `MOC::new`: validates the parsed record (`moc` table
with uid, title, description, optional notes, tags; top-level
`collection` array), creates the MOC container keyed by its uid inside
the given `mocs` database container, writes the collections and their
length, stores every attribute via `store_lazy`, clears the cache and
returns the MOC.  The second component is the state of the `mocs`
container afterwards, including partial writes when validation crashes
after the container was created. -/
def MOC.new (table : Toml) (database : LazyContainer) :
    (Except CommitError MOC) × LazyContainer :=
  match get_table table "moc" with
  | .error e => (.error e, database)
  | .ok moc_table =>
  match get_str moc_table "uid" with
  | .error e => (.error e, database)
  | .ok uid =>
  match get_str moc_table "title" with
  | .error e => (.error e, database)
  | .ok title =>
  match get_str moc_table "description" with
  | .error e => (.error e, database)
  | .ok description =>
  match get_array_opt moc_table "notes" with
  | .error e => (.error e, database)
  | .ok raw_notes =>
  match get_array moc_table "tags" with
  | .error e => (.error e, database)
  | .ok raw_tags =>
  match get_array table "collection" with
  | .error e => (.error e, database)
  | .ok raw_collections =>
  let container := new_container database uid
  match unpack_strings raw_notes "all notes in a moc must be strings" with
  | .error e => (.error e, write_child database uid container)
  | .ok notes =>
  match unpack_strings raw_tags "all tags in a moc must be strings" with
  | .error e => (.error e, write_child database uid container)
  | .ok tags =>
  match write_collections raw_collections 0 (new_container container "collections") with
  | (.error e, clist) => (.error e, write_child database uid (write_child container "collections" clist))
  | (.ok cols, clist) =>
  let clist := write_data clist "length" (.u16 (raw_collections.length % 65536))
  let container := write_child container "collections" clist
  let this : MOC :=
    { container := container
      uid := uid
      title := some title
      description := some description
      notes := some notes
      tags := some tags
      collections := some cols }
  let stored := this.store_lazy
  (.ok { (this.clear_cache) with container := stored }, write_child database uid stored)

/-- The `tags` accessor generated by the `cache_field!` macro.  The macro
lives in a module that is not under src/, so the caching wrapper is
modelled from the spec (section 4.1: return the cached value when
present, otherwise fetch, populate the cache and return); the fetch body
is the one written in src/src/moc.rs (list::read of the `tags` child). -/
def MOC.tags_field (m : MOC) : (Except LDBError (List String)) × MOC :=
  match m.tags with
  | some x => (.ok x, m)
  | none =>
    match child_container m.container "tags" with
    | .error e => (.error e, m)
    | .ok tc =>
      match list.read collect_string tc with
      | .error e => (.error e, m)
      | .ok x => (.ok x, { m with tags := some x })

/-- src/src/moc.rs `impl Searchable for MOC`, `contains_tag`: tests
membership via the `tags` accessor, then unconditionally clears the tags
cache (`self.tags = None`). -/
def MOC.contains_tag (m : MOC) (tag : String) : (Except LDBError Bool) × MOC :=
  match m.tags_field with
  | (.error e, m') => (.error e, m')
  | (.ok ts, m') => (.ok (ts.contains tag), { m' with tags := none })

/-- struct `Section` (src/src/entry/section.rs). -/
structure Section where
  container : LazyContainer
  title : Option String
  notes : Option (List String)
  content : Option String

/-- src/src/entry/section.rs `Section::store_lazy`: writes the cached
title, content and notes back into the container; absent attributes are
skipped. -/
def Section.store_lazy (s : Section) : LazyContainer :=
  let c := s.container
  let c := match s.title with
    | some x => write_data c "title" (.str x)
    | none => c
  let c := match s.content with
    | some x => write_data c "content" (.str x)
    | none => c
  let c := match s.notes with
    | some x => write_child c "notes" (list.write x LazyData.str (new_container c "notes"))
    | none => c
  c

/-- src/src/entry/section.rs `Section::load_lazy`. -/
def Section.load_lazy (container : LazyContainer) : Section :=
  { container := container, title := none, notes := none, content := none }

/-- src/src/entry/section.rs `Section::clear_cache`. -/
def Section.clear_cache (s : Section) : Section :=
  { s with title := none, content := none, notes := none }

/-- src/src/entry/section.rs `Section::new`: validates title, path and
notes, reads the section content from the file at `path` (a missing file
is fatal), writes everything via `store_lazy`, clears the cache and
returns the section.  `fs` models the external file system as a name to
contents map. -/
def Section.new (t : Toml) (container : LazyContainer) (fs : List (String × String)) :
    Except CommitError (Section × LazyContainer) := do
  let title ← get_str t "title"
  let path ← get_str t "path"
  let raw_notes ← get_array t "notes"
  let content ← match fs.find? (fun p => p.1 == path) with
    | none => Except.error (.validation "path specified in the section does not exist")
    | some p => Except.ok p.2
  let notes ← unpack_strings raw_notes "all notes in a section must be strings"
  let this : Section :=
    { container := container, title := some title, content := some content, notes := some notes }
  let stored := this.store_lazy
  pure (Section.load_lazy stored, stored)

/-- struct `Entry`: src/src/entry/mod.rs is not under src/; per the spec
(sections 3 and 6) an Entry holds a container handle, its uid, and the
lazily cached title, description, notes, tags, three-part date and
sections. -/
structure Entry where
  container : LazyContainer
  uid : String
  title : Option String
  description : Option String
  notes : Option (List String)
  tags : Option (List String)
  date : Option (List Nat)
  sections : Option (List Section)

/-- Modelled from the spec: src/src/entry/mod.rs is not under src/.
`Entry::store_lazy` writes every cached scalar/list attribute back into
the container, in the same shape as `MOC::store_lazy`. -/
def Entry.store_lazy (e : Entry) : LazyContainer :=
  let c := e.container
  let c := match e.title with
    | some x => write_data c "title" (.str x)
    | none => c
  let c := match e.description with
    | some x => write_data c "description" (.str x)
    | none => c
  let c := match e.notes with
    | some x => write_child c "notes" (list.write x LazyData.str (new_container c "notes"))
    | none => c
  let c := match e.tags with
    | some x => write_child c "tags" (list.write x LazyData.str (new_container c "tags"))
    | none => c
  let c := match e.date with
    | some x => write_child c "date" (list.write x (fun n => LazyData.u16 (n % 65536)) (new_container c "date"))
    | none => c
  c

/-- Modelled from the spec: src/src/entry/mod.rs is not under src/.
A loaded Entry starts with every attribute unloaded. -/
def Entry.load_lazy (uid : String) (container : LazyContainer) : Entry :=
  { container := container
    uid := uid
    title := none
    description := none
    notes := none
    tags := none
    date := none
    sections := none }

/-- Modelled from the spec: `Entry::clear_cache`. -/
def Entry.clear_cache (e : Entry) : Entry :=
  { e with
    title := none
    description := none
    notes := none
    tags := none
    date := none
    sections := none }

/-- Writing the sections of a new entry one by one, mirroring the
collections loop of `MOC::new`; each element must be a toml table and is
written via `Section::new` (src/src/entry/section.rs). -/
def write_sections : List Toml → Nat → LazyContainer → List (String × String) →
    (Except CommitError (List Section)) × LazyContainer
  | [], _, slist, _ => (.ok [], slist)
  | x :: rest, idx, slist, fs =>
    if x.is_table then
      match Section.new x (new_container slist (natToString idx)) fs with
      | .error e => (.error e, slist)
      | .ok (sec, scont) =>
        match write_sections rest (idx + 1) (write_child slist (natToString idx) scont) fs with
        | (.error e, slist') => (.error e, slist')
        | (.ok secs, slist') => (.ok (sec :: secs), slist')
    else (.error (.validation "section must be a toml table"), slist)

/-- Modelled from the spec: src/src/entry/mod.rs is not under src/.
`Entry::new` validates the parsed record (an `entry` table with uid,
title, description, optional notes, tags and a three-part date; a
top-level `section` array parsed by `Section::new`), creates the entry
container keyed by its uid inside the `entries` database container,
writes the sections and their length, stores every attribute via
`store_lazy`, clears the cache and returns the entry.  The second
component is the state of the `entries` container afterwards. -/
def Entry.new (table : Toml) (database : LazyContainer) (fs : List (String × String)) :
    (Except CommitError Entry) × LazyContainer :=
  match get_table table "entry" with
  | .error e => (.error e, database)
  | .ok entry_table =>
  match get_str entry_table "uid" with
  | .error e => (.error e, database)
  | .ok uid =>
  match get_str entry_table "title" with
  | .error e => (.error e, database)
  | .ok title =>
  match get_str entry_table "description" with
  | .error e => (.error e, database)
  | .ok description =>
  match get_array_opt entry_table "notes" with
  | .error e => (.error e, database)
  | .ok raw_notes =>
  match get_array entry_table "tags" with
  | .error e => (.error e, database)
  | .ok raw_tags =>
  match get_array entry_table "date" with
  | .error e => (.error e, database)
  | .ok raw_date =>
  match get_array table "section" with
  | .error e => (.error e, database)
  | .ok raw_sections =>
  let container := new_container database uid
  match unpack_strings raw_notes "all notes in an entry must be strings" with
  | .error e => (.error e, write_child database uid container)
  | .ok notes =>
  match unpack_strings raw_tags "all tags in an entry must be strings" with
  | .error e => (.error e, write_child database uid container)
  | .ok tags =>
  match unpack_u16s raw_date "date must be three u16 integers" with
  | .error e => (.error e, write_child database uid container)
  | .ok date =>
  if date.length = 3 then
    match write_sections raw_sections 0 (new_container container "sections") fs with
    | (.error e, slist) => (.error e, write_child database uid (write_child container "sections" slist))
    | (.ok secs, slist) =>
    let slist := write_data slist "length" (.u16 (raw_sections.length % 65536))
    let container := write_child container "sections" slist
    let this : Entry :=
      { container := container
        uid := uid
        title := some title
        description := some description
        notes := some notes
        tags := some tags
        date := some date
        sections := some secs }
    let stored := this.store_lazy
    (.ok { (this.clear_cache) with container := stored }, write_child database uid stored)
  else (.error (.validation "date must be three u16 integers"), write_child database uid container)

/-- Modelled from the spec: the `tags` accessor of `Entry`, the same
cache_field pattern as `MOC.tags_field` (spec section 4.1). -/
def Entry.tags_field (e : Entry) : (Except LDBError (List String)) × Entry :=
  match e.tags with
  | some x => (.ok x, e)
  | none =>
    match child_container e.container "tags" with
    | .error er => (.error er, e)
    | .ok tc =>
      match list.read collect_string tc with
      | .error er => (.error er, e)
      | .ok x => (.ok x, { e with tags := some x })

/-- Modelled from the spec: `impl Searchable for Entry`, `contains_tag`,
the same pattern as the MOC implementation in src/src/moc.rs. -/
def Entry.contains_tag (e : Entry) (tag : String) : (Except LDBError Bool) × Entry :=
  match e.tags_field with
  | (.error er, e') => (.error er, e')
  | (.ok ts, e') => (.ok (ts.contains tag), { e' with tags := none })

/-! ## The commit protocol (src/src/archive.rs `Archive::commit`) -/

/-- The persistent state a commit touches: the archive tree at the home
location and the contents of the well-known `backup.ldb` file (`none`
means the directory/file does not exist). -/
structure World where
  archive : Option LazyContainer
  backupFile : Option LazyContainer

/-- Outcome of a commit command: clean completion or a crash. -/
inductive CommitOutcome where
  | ok
  | crashed : CommitError → CommitOutcome
deriving DecidableEq, Repr

/-- src/src/archive.rs `Archive::backup`: crashes when no archive exists;
otherwise compiles the archive tree into the backup file.  `ioOk` models
whether the filesystem compile succeeds: on failure the source crashes or
loops asking the operator to retry, so the calling command does not
proceed past this point, which we model as a failed backup. -/
def Archive.backup (w : World) (ioOk : Bool) : World × Bool :=
  match w.archive with
  | none => (w, false)
  | some db => if ioOk then ({ w with backupFile := some db }, true) else (w, false)

/-- src/src/archive.rs `Archive::commit`: checks the archive and the
config file exist, removes and re-creates the `backup.ldb` snapshot,
reads the `is-moc` flag, ingests the record as a MOC or as an Entry
(pushing a new entry's uid onto `order/unsorted`), and finally writes
`itver = self.itver + 1` (u16 arithmetic) at the archive root.  `itver`
is the iteration version read when the archive was loaded; `config` is
the parsed record (`none` when the config file does not exist); `fs` is
the external file system used for section contents; `ioOk` models the
backup compile.  Returns the persisted state after the command together
with its outcome. -/
def Archive.commit (itver : Nat) (config : Option Toml) (fs : List (String × String))
    (ioOk : Bool) (w : World) : World × CommitOutcome :=
  match w.archive with
  | none => (w, .crashed .archiveMissing)
  | some db =>
  match config with
  | none => (w, .crashed .configMissing)
  | some table =>
  match Archive.backup { w with backupFile := none } ioOk with
  | (w₁, false) => (w₁, .crashed .backupFailed)
  | (w₁, true) =>
  match (match table.get "is-moc" with
         | none => Except.ok false
         | some v =>
           match v.as_bool with
           | some b => Except.ok b
           | none => Except.error
               (CommitError.validation "is-moc attribute of config file must be boolean")) with
  | .error e => (w₁, .crashed e)
  | .ok is_moc =>
  if is_moc then
    match MOC.new table (new_container db "mocs") with
    | (.error e, mocs') => ({ w₁ with archive := some (write_child db "mocs" mocs') }, .crashed e)
    | (.ok _, mocs') =>
      let db := write_child db "mocs" mocs'
      let db := write_data db "itver" (.u16 ((itver + 1) % 65536))
      ({ w₁ with archive := some db }, .ok)
  else
    match Entry.new table (new_container db "entries") fs with
    | (.error e, entries') =>
      ({ w₁ with archive := some (write_child db "entries" entries') }, .crashed e)
    | (.ok entry, entries') =>
      let db := write_child db "entries" entries'
      let order := new_container db "order"
      let uns := new_container order "unsorted"
      match list.push (.str entry.uid) uns with
      | .error e => ({ w₁ with archive := some db }, .crashed (.storage e))
      | .ok uns' =>
        let db := write_child db "order" (write_child order "unsorted" uns')
        let db := write_data db "itver" (.u16 ((itver + 1) % 65536))
        ({ w₁ with archive := some db }, .ok)

/-! ## Tag search (trait Searchable; src/src/search.rs is not under src/) -/

/-- The searchable interface (trait `Searchable` in the source): uid
access and the stateful tag-membership test. -/
structure Searchable (α : Type) where
  get_uid : α → String
  contains_tag : α → String → (Except LDBError Bool) × α

/-- The Searchable implementation for MOC from src/src/moc.rs. -/
def mocSearchable : Searchable MOC :=
  { get_uid := fun m => m.uid, contains_tag := MOC.contains_tag }

/-- Modelled from the spec: the Searchable implementation for Entry (its
source module is not under src/), the same pattern as the MOC one. -/
def entrySearchable : Searchable Entry :=
  { get_uid := fun e => e.uid, contains_tag := Entry.contains_tag }

namespace search

/-- Modelled from the spec: src/src/search.rs is not under src/.  Tests
every tag of the filter against the entity through `contains_tag` (AND
semantics), threading the entity state. -/
def matches_all {α : Type} (S : Searchable α) (tags : List String) (e : α) :
    (Except LDBError Bool) × α :=
  match tags with
  | [] => (.ok true, e)
  | t :: ts =>
    match S.contains_tag e t with
    | (.error er, e') => (.error er, e')
    | (.ok b, e') =>
      match matches_all S ts e' with
      | (.error er, e'') => (.error er, e'')
      | (.ok b', e'') => (.ok (b && b'), e'')

/-- Modelled from the spec: OR semantics over the tag filter. -/
def matches_any {α : Type} (S : Searchable α) (tags : List String) (e : α) :
    (Except LDBError Bool) × α :=
  match tags with
  | [] => (.ok false, e)
  | t :: ts =>
    match S.contains_tag e t with
    | (.error er, e') => (.error er, e')
    | (.ok b, e') =>
      match matches_any S ts e' with
      | (.error er, e'') => (.error er, e'')
      | (.ok b', e'') => (.ok (b || b'), e'')

/-- Modelled from the spec: src/src/search.rs is not under src/.
`search_strict(tags, entities)` returns the uids of the entities whose
tag set contains every tag of the filter (AND semantics); the second
component is the entity list after scanning (each tested entity has gone
through `contains_tag`). -/
def search_strict {α : Type} (S : Searchable α) (tags : List String) (es : List α) :
    (Except LDBError (List String)) × List α :=
  match es with
  | [] => (.ok [], [])
  | e :: rest =>
    match matches_all S tags e with
    | (.error er, e') => (.error er, e' :: rest)
    | (.ok b, e') =>
      match search_strict S tags rest with
      | (.error er, rest') => (.error er, e' :: rest')
      | (.ok uids, rest') => (.ok (if b then S.get_uid e :: uids else uids), e' :: rest')

/-- Modelled from the spec: src/src/search.rs is not under src/.
`search(tags, entities)` returns the uids of the entities with at least
one matching tag (OR semantics). -/
def search {α : Type} (S : Searchable α) (tags : List String) (es : List α) :
    (Except LDBError (List String)) × List α :=
  match es with
  | [] => (.ok [], [])
  | e :: rest =>
    match matches_any S tags e with
    | (.error er, e') => (.error er, e' :: rest)
    | (.ok b, e') =>
      match search S tags rest with
      | (.error er, rest') => (.error er, e' :: rest')
      | (.ok uids, rest') => (.ok (if b then S.get_uid e :: uids else uids), e' :: rest')

end search

/-! ## Export selection (src/src/export.rs) -/

/-- The tag-filter selection of `export_md` (src/src/export.rs lines
10-16) for the entries collection: with a tag filter present, `strict`
selects `search::search` and otherwise `search::search_strict`. -/
def export_md_select_entries (strict : Bool) (tags : List String) (es : List Entry) :
    (Except LDBError (List String)) × List Entry :=
  if strict then search.search entrySearchable tags es
  else search.search_strict entrySearchable tags es

/-- The tag-filter selection of `export_md` (src/src/export.rs lines
17-23) for the mocs collection: with a tag filter present, `strict`
selects `search::search` and otherwise `search::search_strict`. -/
def export_md_select_mocs (strict : Bool) (tags : List String) (es : List MOC) :
    (Except LDBError (List String)) × List MOC :=
  if strict then search.search mocSearchable tags es
  else search.search_strict mocSearchable tags es

/-- The tag list stored for a MOC: `list::read` of the `tags` child. -/
def MOC.stored_tags (m : MOC) : Except LDBError (List String) :=
  match child_container m.container "tags" with
  | .error e => .error e
  | .ok tc => list.read collect_string tc

/-- The tag list stored for an Entry. -/
def Entry.stored_tags (e : Entry) : Except LDBError (List String) :=
  match child_container e.container "tags" with
  | .error er => .error er
  | .ok tc => list.read collect_string tc

/-- Spec-side predicate (spec section 4.6, loose search): at least one
filter tag is present in the entity's stored tag set. -/
def MOC.spec_or_match (tags : List String) (m : MOC) : Bool :=
  match m.stored_tags with
  | .ok ts => tags.any (fun t => ts.contains t)
  | .error _ => false

/-- Spec-side predicate (spec section 4.6, strict search): every filter
tag is present in the entity's stored tag set. -/
def MOC.spec_and_match (tags : List String) (m : MOC) : Bool :=
  match m.stored_tags with
  | .ok ts => tags.all (fun t => ts.contains t)
  | .error _ => false

/-- Spec-side predicate for entries, loose search. -/
def Entry.spec_or_match (tags : List String) (e : Entry) : Bool :=
  match e.stored_tags with
  | .ok ts => tags.any (fun t => ts.contains t)
  | .error _ => false

/-- Spec-side predicate for entries, strict search. -/
def Entry.spec_and_match (tags : List String) (e : Entry) : Bool :=
  match e.stored_tags with
  | .ok ts => tags.all (fun t => ts.contains t)
  | .error _ => false

/-- Cache coherence of a MOC's tags: the stored tags are readable and the
cache, when populated, holds exactly them. -/
def MOC.tags_coherent (m : MOC) : Prop :=
  ∃ ts, m.stored_tags = .ok ts ∧ (m.tags = none ∨ m.tags = some ts)

/-- Cache coherence of an Entry's tags. -/
def Entry.tags_coherent (e : Entry) : Prop :=
  ∃ ts, e.stored_tags = .ok ts ∧ (e.tags = none ∨ e.tags = some ts)

/-! ## Sample data for concrete runs -/

/-- A minimal valid MOC config record (`is-moc = true`, empty tag and
collection lists). -/
def sampleMocConfig : Toml :=
  .table [("is-moc", .bool true),
          ("moc", .table [("uid", .str "m1"), ("title", .str "t"),
                          ("description", .str "d"), ("tags", .arr [])]),
          ("collection", .arr [])]

/-- A config record that fails validation: `is-moc` is not a boolean. -/
def sampleBadConfig : Toml :=
  .table [("is-moc", .str "yes")]

/-- An archive tree holding uid 1 and itver 5. -/
def sampleDb : LazyContainer :=
  .mk [("uid", .data (.u64 1)), ("itver", .data (.u16 5))]

/-- A world holding the sample archive and no backup file. -/
def sampleWorld : World :=
  { archive := some sampleDb, backupFile := none }

/-- An archive tree at the u16 boundary: itver 65535. -/
def sampleDbMax : LazyContainer :=
  .mk [("uid", .data (.u64 1)), ("itver", .data (.u16 65535))]

/-- A world holding the boundary archive. -/
def sampleWorldMax : World :=
  { archive := some sampleDbMax, backupFile := none }

/-- A MOC whose title and notes are cached, description unloaded (with an
old stored value), tags unloaded and no collections cache. -/
def sampleStoreMoc : MOC :=
  { container := .mk [("description", .data (.str "old"))]
    uid := "m"
    title := some "T"
    description := none
    notes := some ["n1"]
    tags := none
    collections := none }

/-- A section with cached title and content, notes unloaded. -/
def sampleStoreSection : Section :=
  { container := .mk [], title := some "S", notes := none, content := some "body" }

/-- A MOC whose only cached attribute is a non-empty collections list. -/
def sampleCachedMoc : MOC :=
  { container := .mk []
    uid := "m"
    title := none
    description := none
    notes := none
    tags := none
    collections := some [⟨.mk [], none, none, none⟩] }

/-- A MOC with a cached tag list. -/
def sampleTaggedMoc : MOC :=
  { container := .mk []
    uid := "m1"
    title := none
    description := none
    notes := none
    tags := some ["x"]
    collections := none }

/-- A lazily loaded MOC whose container stores the tag list `x`. -/
def sampleSearchMoc : MOC :=
  MOC.load_lazy "m1" (write_child (.mk []) "tags" (list.write ["x"] LazyData.str (.mk [])))

/-! ## Proofs -/

theorem digitChar_inj_lt : ∀ a < 10, ∀ b < 10, Nat.digitChar a = Nat.digitChar b → a = b := by
  decide

theorem digitChar_ne_l : ∀ a < 10, Nat.digitChar a ≠ 'l' := by
  decide

theorem map_digitChar_inj : ∀ (l₁ l₂ : List Nat), (∀ d ∈ l₁, d < 10) → (∀ d ∈ l₂, d < 10) →
    l₁.map Nat.digitChar = l₂.map Nat.digitChar → l₁ = l₂ := by
  intro l₁
  induction l₁ with
  | nil => intro l₂ _ _ h; cases l₂ <;> simp_all
  | cons a t ih =>
    intro l₂ h₁ h₂ h
    cases l₂ with
    | nil => simp_all
    | cons b t₂ =>
      simp only [List.map_cons, List.cons.injEq] at h
      have ha : a = b := digitChar_inj_lt a (h₁ a (by simp)) b (h₂ b (by simp)) h.1
      have ht : t = t₂ := ih t₂ (fun d hd => h₁ d (by simp [hd])) (fun d hd => h₂ d (by simp [hd])) h.2
      rw [ha, ht]

theorem digits_map_eq_zero_char (n : Nat) (h : (Nat.digits 10 n).map Nat.digitChar = ['0']) :
    n = 0 := by
  have hdig : Nat.digits 10 n = [0] := by
    cases hds : Nat.digits 10 n with
    | nil => rw [hds] at h; simp at h
    | cons d ds =>
      rw [hds] at h
      simp only [List.map_cons, List.cons.injEq] at h
      have hd10 : d < 10 := Nat.digits_lt_base (by norm_num) (by rw [hds]; simp)
      have hd0 : d = 0 := digitChar_inj_lt d hd10 0 (by norm_num) h.1
      have hds0 : ds = [] := List.map_eq_nil_iff.mp h.2
      rw [hd0, hds0]
  have := (Nat.ofDigits_digits 10 n).symm
  rw [hdig] at this
  simpa [Nat.ofDigits] using this

theorem natToString_eq_zero_str (n : Nat) (h : natToString n = "0") : n = 0 := by
  by_contra hn
  unfold natToString at h
  rw [if_neg hn] at h
  have h' : ((Nat.digits 10 n).map Nat.digitChar).reverse = ['0'] := by
    have := congrArg String.data h
    simpa using this
  have h'' : (Nat.digits 10 n).map Nat.digitChar = ['0'] := by
    have := congrArg List.reverse h'
    simpa using this
  exact hn (digits_map_eq_zero_char n h'')

theorem natToString_inj : ∀ m n : Nat, natToString m = natToString n → m = n := by
  intro m n h
  by_cases hm : m = 0
  · subst hm
    exact (natToString_eq_zero_str n h.symm).symm
  · by_cases hn : n = 0
    · subst hn
      exact natToString_eq_zero_str m h
    · unfold natToString at h
      rw [if_neg hm, if_neg hn] at h
      have h' : ((Nat.digits 10 m).map Nat.digitChar).reverse
          = ((Nat.digits 10 n).map Nat.digitChar).reverse := by
        have := congrArg String.data h
        simpa using this
      have h'' := congrArg List.reverse h'
      simp only [List.reverse_reverse] at h''
      have := map_digitChar_inj _ _ (fun d hd => Nat.digits_lt_base (by norm_num) hd)
        (fun d hd => Nat.digits_lt_base (by norm_num) hd) h''
      exact Nat.digits_inj_iff.mp this

theorem natToString_ne_length (n : Nat) : natToString n ≠ "length" := by
  unfold natToString
  by_cases hn : n = 0
  · simp [hn]
  · simp only [hn, if_false, reduceIte]
    intro h
    have h' : (((Nat.digits 10 n).map Nat.digitChar).reverse : List Char) = ("length" : String).data := by
      have := congrArg String.data h
      simpa using this
    have hmem : 'l' ∈ ((Nat.digits 10 n).map Nat.digitChar).reverse := by
      rw [h']
      decide
    simp only [List.mem_reverse, List.mem_map] at hmem
    obtain ⟨d, hd, hdc⟩ := hmem
    exact digitChar_ne_l d (Nat.digits_lt_base (by norm_num) hd) hdc


/-! ### Lookup lemmas for the container model -/

theorem read_data_write_data_same (c : LazyContainer) (k : String) (d : LazyData) :
    read_data (write_data c k d) k = .ok d := by
  simp [read_data, write_data, List.find?_cons_of_pos, LazyContainer.entries]

theorem read_data_write_data_ne (c : LazyContainer) (k k' : String) (d : LazyData) (h : k' ≠ k) :
    read_data (write_data c k d) k' = read_data c k' := by
  simp only [read_data, write_data, LazyContainer.entries]
  rw [List.find?_cons_of_neg]
  simp [beq_iff_eq, h.symm]

theorem read_data_write_child_ne (c : LazyContainer) (k k' : String) (sub : LazyContainer)
    (h : k' ≠ k) : read_data (write_child c k sub) k' = read_data c k' := by
  simp only [read_data, write_child, LazyContainer.entries]
  rw [List.find?_cons_of_neg]
  simp [beq_iff_eq, h.symm]

theorem child_container_write_data_ne (c : LazyContainer) (k k' : String) (d : LazyData)
    (h : k' ≠ k) : child_container (write_data c k d) k' = child_container c k' := by
  simp only [child_container, write_data, LazyContainer.entries]
  rw [List.find?_cons_of_neg]
  simp [beq_iff_eq, h.symm]

theorem child_container_write_child_same (c : LazyContainer) (k : String) (sub : LazyContainer) :
    child_container (write_child c k sub) k = .ok sub := by
  simp [child_container, write_child, List.find?_cons_of_pos, LazyContainer.entries]

theorem child_container_write_child_ne (c : LazyContainer) (k k' : String) (sub : LazyContainer)
    (h : k' ≠ k) : child_container (write_child c k sub) k' = child_container c k' := by
  simp only [child_container, write_child, LazyContainer.entries]
  rw [List.find?_cons_of_neg]
  simp [beq_iff_eq, h.symm]

/-! ### Codec correctness -/

/-- After writing the children of a list starting from index `n`, looking up
the key of index `j` finds the written element when `j` addresses one of
them and is otherwise unaffected. -/
theorem write_children_lookup {α : Type} (f : α → LazyData) :
    ∀ (l : List α) (n : Nat) (c : LazyContainer) (j : Nat),
      read_data ((l.enumFrom n).foldl (fun c p => write_data c (natToString p.1) (f p.2)) c)
        (natToString j)
      = if h : n ≤ j ∧ j < n + l.length then .ok (f (l.get ⟨j - n, by omega⟩))
        else read_data c (natToString j) := by
  intro l
  induction l with
  | nil =>
    intro n c j
    rw [dif_neg (by simp)]
    simp [List.enumFrom]
  | cons x xs ih =>
    intro n c j
    rw [List.enumFrom_cons, List.foldl_cons, ih]
    by_cases h1 : n + 1 ≤ j ∧ j < n + 1 + xs.length
    · rw [dif_pos h1, dif_pos (by simp only [List.length_cons]; omega)]
      congr 1
      have hj : j - n = (j - (n + 1)) + 1 := by omega
      simp only [hj, List.get_cons_succ]
    · rw [dif_neg h1]
      by_cases h2 : j = n
      · subst h2
        rw [read_data_write_data_same, dif_pos (by simp only [List.length_cons]; omega)]
        have : j - j = 0 := by omega
        simp [this]
      · rw [read_data_write_data_ne _ _ _ _ (fun he => h2 (natToString_inj j n he)),
          dif_neg (by simp only [List.length_cons]; omega)]

/-- Writing the children of a list never touches the `length` field. -/
theorem write_children_length {α : Type} (f : α → LazyData) :
    ∀ (l : List α) (n : Nat) (c : LazyContainer),
      read_data ((l.enumFrom n).foldl (fun c p => write_data c (natToString p.1) (f p.2)) c)
        "length" = read_data c "length" := by
  intro l
  induction l with
  | nil => intro n c; simp [List.enumFrom]
  | cons x xs ih =>
    intro n c
    rw [List.enumFrom_cons, List.foldl_cons, ih,
      read_data_write_data_ne _ _ _ _ (natToString_ne_length n).symm]

theorem mapM_range_take {α : Type} (l : List α) (g : Nat → Except LDBError α)
    (hg : ∀ i (h : i < l.length), g i = .ok (l.get ⟨i, h⟩)) :
    ∀ (L : Nat), L ≤ l.length → (List.range L).mapM g = .ok (l.take L) := by
  intro L
  induction L with
  | zero => intro _; rfl
  | succ L ih =>
    intro hL
    rw [List.range_succ, List.mapM_append, ih (by omega), List.mapM_cons,
      hg L (by omega), List.mapM_nil]
    simp only [bind, Except.bind, pure, Except.pure, List.take_succ,
      List.getElem?_eq_getElem (by omega : L < l.length)]
    rfl

/-- General round-trip for the list codec: reading a just-written list
returns its first `length mod 2^16` elements, for any element codec that
round-trips. -/
theorem read_write {α : Type} (f : α → LazyData) (g : LazyData → Except LDBError α)
    (hfg : ∀ a, g (f a) = .ok a) (l : List α) (c : LazyContainer) :
    list.read g (list.write l f c) = .ok (l.take (l.length % 65536)) := by
  unfold list.read list.write
  simp only [read_data_write_data_same, bind, Except.bind, collect_u16]
  apply mapM_range_take _ _ _ _ (Nat.mod_le _ _)
  intro i hi
  rw [read_data_write_data_ne _ _ _ _ (natToString_ne_length i),
    List.enum_eq_enumFrom, write_children_lookup f l 0 c i, dif_pos (by omega)]
  simp [Except.bind, hfg]

/-- Unfolding one `push` on a container whose `length` field reads back. -/
theorem push_ok (c : LazyContainer) (L : Nat) (v : LazyData)
    (h : read_data c "length" = .ok (.u16 L)) :
    list.push v c
      = .ok (write_data (write_data c (natToString L) v) "length" (.u16 ((L + 1) % 65536))) := by
  unfold list.push
  rw [h]
  rfl

/-- State after a run of sequential pushes: the length advances by the
number of pushes (u16 arithmetic), each pushed value sits at the key of
its index, and other keys are untouched. -/
theorem pushN_spec :
    ∀ (vs : List LazyData) (c : LazyContainer) (L : Nat),
      read_data c "length" = .ok (.u16 L) → L < 65536 → L + vs.length ≤ 65536 →
      ∃ c', list.pushN vs c = .ok c' ∧
        read_data c' "length" = .ok (.u16 ((L + vs.length) % 65536)) ∧
        (∀ j (hj : j < vs.length), read_data c' (natToString (L + j)) = .ok (vs.get ⟨j, hj⟩)) ∧
        (∀ k, k < L ∨ L + vs.length ≤ k →
          read_data c' (natToString k) = read_data c (natToString k)) := by
  intro vs
  induction vs with
  | nil =>
    intro c L h hL _
    refine ⟨c, rfl, ?_, ?_, fun k _ => rfl⟩
    · simp only [List.length_nil, Nat.add_zero]
      rw [h, Nat.mod_eq_of_lt hL]
    · intro j hj
      simp only [List.length_nil] at hj
      omega
  | cons v rest ih =>
    intro c L h hL hsum
    have hstep := push_ok c L v h
    set c₂ := write_data (write_data c (natToString L) v) "length" (.u16 ((L + 1) % 65536)) with hc₂
    have hread₂ : read_data c₂ "length" = .ok (.u16 ((L + 1) % 65536)) :=
      read_data_write_data_same _ _ _
    have hkeep₂ : ∀ k, k ≠ L → read_data c₂ (natToString k) = read_data c (natToString k) := by
      intro k hk
      rw [hc₂, read_data_write_data_ne _ _ _ _ (natToString_ne_length k),
        read_data_write_data_ne _ _ _ _ (fun he => hk (natToString_inj k L he))]
    have hvat₂ : read_data c₂ (natToString L) = .ok v := by
      rw [hc₂, read_data_write_data_ne _ _ _ _ (natToString_ne_length L),
        read_data_write_data_same]
    by_cases hL1 : L + 1 < 65536
    · have hmod : (L + 1) % 65536 = L + 1 := Nat.mod_eq_of_lt hL1
      rw [hmod] at hread₂
      obtain ⟨c', h1, h2, h3, h4⟩ := ih c₂ (L + 1) hread₂ hL1
        (by simp only [List.length_cons] at hsum; omega)
      refine ⟨c', ?_, ?_, ?_, ?_⟩
      · unfold list.pushN
        rw [hstep]
        exact h1
      · rw [h2]
        congr 2
        simp only [List.length_cons]
        omega
      · intro j hj
        match j with
        | 0 =>
          rw [Nat.add_zero]
          rw [h4 L (by omega), hvat₂]
          rfl
        | j' + 1 =>
          have := h3 j' (by simp only [List.length_cons] at hj; omega)
          rw [show L + (j' + 1) = (L + 1) + j' by omega]
          rw [this]
          rfl
      · intro k hk
        simp only [List.length_cons] at hk
        rw [h4 k (by omega), hkeep₂ k (by omega)]
    · have hL65535 : L + 1 = 65536 := by omega
      have hrest : rest = [] := by
        simp only [List.length_cons] at hsum
        have : rest.length = 0 := by omega
        exact List.length_eq_zero.mp this
      subst hrest
      refine ⟨c₂, ?_, ?_, ?_, ?_⟩
      · unfold list.pushN
        rw [hstep]
        rfl
      · simpa using hread₂
      · intro j hj
        simp only [List.length_cons, List.length_nil] at hj
        match j, hj with
        | 0, _ =>
          rw [Nat.add_zero, hvat₂]
          rfl
      · intro k hk
        simp only [List.length_cons, List.length_nil] at hk
        exact hkeep₂ k (by omega)

/-! ## Claim C4 — list round trip -/

/-- C4 (amended): for every sequence of strings whose length is below
2^16, reading a list container after writing that sequence returns
exactly the original sequence in order.  The bound is forced by the
truncating `as u16` cast when the codec stores the length. -/
theorem C4_list_round_trip (l : List String) (c : LazyContainer) (h : l.length < 65536) :
    list.read collect_string (list.write l LazyData.str c) = .ok l := by
  rw [read_write LazyData.str collect_string (fun a => rfl) l c, Nat.mod_eq_of_lt h,
    List.take_length]

/-- Witness for C4: the round trip evaluated on a two-element sequence. -/
theorem C4_witness :
    (["a", "b"] : List String).length < 65536 ∧
      list.read collect_string (list.write ["a", "b"] LazyData.str (.mk [])) = .ok ["a", "b"] :=
  ⟨by norm_num, C4_list_round_trip ["a", "b"] (.mk []) (by norm_num)⟩

/-- Counterexample for C4 as stated: a sequence of 2^16 strings does not
round-trip, because `write` stores `length` as `len as u16 = 0`, so `read`
returns the empty sequence. -/
theorem C4_counterexample :
    list.read collect_string (list.write (List.replicate 65536 "x") LazyData.str (.mk []))
      ≠ .ok (List.replicate 65536 "x") := by
  rw [read_write LazyData.str collect_string (fun a => rfl) _ _]
  intro h
  have h2 := congrArg
    (fun r => (match r with | Except.ok l => l.length | Except.error _ => 0)) h
  simp only [List.length_take, List.length_replicate] at h2
  omega

/-! ## Claim C5 — push monotonicity -/

/-- C5 (amended): after K sequential pushes on an initially empty list
(length field 0), for K below 2^16 the stored length equals K and the
child at each index holds the corresponding pushed value; moreover each
single push reads the current length, writes the new value at the key
given by that length, then writes length + 1 (u16 arithmetic).  The
bound on K is forced by the u16 length field. -/
theorem C5_push_monotonicity (vs : List String) (c : LazyContainer)
    (h0 : read_data c "length" = .ok (.u16 0)) (hlen : vs.length < 65536) :
    (∃ c', list.pushN (vs.map LazyData.str) c = .ok c' ∧
      read_data c' "length" = .ok (.u16 vs.length) ∧
      (∀ i (hi : i < vs.length), read_data c' (natToString i) = .ok (.str (vs.get ⟨i, hi⟩)))) ∧
    (∀ (d : LazyContainer) (L : Nat) (v : LazyData), read_data d "length" = .ok (.u16 L) →
      list.push v d = .ok (write_data (write_data d (natToString L) v) "length"
        (.u16 ((L + 1) % 65536)))) := by
  constructor
  · obtain ⟨c', h1, h2, h3, _⟩ := pushN_spec (vs.map LazyData.str) c 0 h0 (by norm_num)
      (by simp only [List.length_map]; omega)
    refine ⟨c', h1, ?_, ?_⟩
    · rw [h2]
      congr 2
      simp only [List.length_map, Nat.zero_add]
      exact Nat.mod_eq_of_lt hlen
    · intro i hi
      have := h3 i (by simp only [List.length_map]; omega)
      rw [Nat.zero_add] at this
      rw [this]
      congr 1
      simp only [List.get_eq_getElem, List.getElem_map]
  · exact fun d L v h => push_ok d L v h

/-- Witness for C5: two pushes on an empty list container. -/
theorem C5_witness :
    read_data (LazyContainer.mk [("length", .data (.u16 0))]) "length" = .ok (.u16 0) ∧
      ((∃ c', list.pushN (["a", "b"].map LazyData.str)
            (LazyContainer.mk [("length", .data (.u16 0))]) = .ok c' ∧
          read_data c' "length" = .ok (.u16 (["a", "b"] : List String).length) ∧
          (∀ i (hi : i < (["a", "b"] : List String).length),
            read_data c' (natToString i) = .ok (.str (["a", "b"].get ⟨i, hi⟩)))) ∧
        (∀ (d : LazyContainer) (L : Nat) (v : LazyData),
          read_data d "length" = .ok (.u16 L) →
          list.push v d = .ok (write_data (write_data d (natToString L) v) "length"
            (.u16 ((L + 1) % 65536))))) :=
  ⟨rfl, C5_push_monotonicity ["a", "b"] (LazyContainer.mk [("length", .data (.u16 0))])
    rfl (by norm_num)⟩

/-- Counterexample for C5 as stated: after 2^16 pushes on an empty list
the stored length is 0, not 2^16, because the length wraps in u16. -/
theorem C5_counterexample :
    (list.pushN (List.replicate 65536 (LazyData.str "x"))
        (LazyContainer.mk [("length", .data (.u16 0))])).bind
        (fun c' => read_data c' "length") = .ok (.u16 0) ∧
      (Except.ok (.u16 0) : Except LDBError LazyData) ≠ .ok (.u16 65536) := by
  obtain ⟨c', h1, h2, _, _⟩ := pushN_spec (List.replicate 65536 (LazyData.str "x"))
    (LazyContainer.mk [("length", .data (.u16 0))]) 0 rfl (by norm_num)
    (by simp only [List.length_replicate]; omega)
  constructor
  · rw [h1]
    show read_data c' "length" = .ok (.u16 0)
    rw [h2]
    norm_num
  · simp

/-! ## Claim C2 — backup identity guard -/

/-- C2: for every existing archive and every backup whose stored uid
differs from the archive's uid, `load_backup` with `force = false` aborts
with a uid-mismatch conflict and leaves the archive at the home location
unmodified; with `force = true` it replaces the archive with the backup's
contents. -/
theorem C2_backup_identity_guard (bc ac : LazyContainer) (old new : Archive)
    (hold : Archive.load_dir ac = .ok old) (hnew : Archive.load_dir bc = .ok new)
    (huid : new.uid ≠ old.uid) :
    Archive.load_backup (some bc) (some ac) false = (some ac, some .uidMismatch) ∧
      Archive.load_backup (some bc) (some ac) true = (some bc, none) := by
  simp only [Archive.load_backup]
  rw [hold, hnew]
  simp [huid]

/-- Witness for C2: concrete archive (uid 1) and backup (uid 2). -/
theorem C2_witness :
    Archive.load_dir (.mk [("uid", .data (.u64 1)), ("itver", .data (.u16 5))])
        = .ok ⟨.mk [("uid", .data (.u64 1)), ("itver", .data (.u16 5))], 1, 5⟩ ∧
      Archive.load_dir (.mk [("uid", .data (.u64 2)), ("itver", .data (.u16 7))])
        = .ok ⟨.mk [("uid", .data (.u64 2)), ("itver", .data (.u16 7))], 2, 7⟩ ∧
      (Archive.load_backup (some (.mk [("uid", .data (.u64 2)), ("itver", .data (.u16 7))]))
          (some (.mk [("uid", .data (.u64 1)), ("itver", .data (.u16 5))])) false
        = (some (.mk [("uid", .data (.u64 1)), ("itver", .data (.u16 5))]), some .uidMismatch) ∧
        Archive.load_backup (some (.mk [("uid", .data (.u64 2)), ("itver", .data (.u16 7))]))
          (some (.mk [("uid", .data (.u64 1)), ("itver", .data (.u16 5))])) true
        = (some (.mk [("uid", .data (.u64 2)), ("itver", .data (.u16 7))]), none)) :=
  ⟨rfl, rfl, C2_backup_identity_guard _ _ _ _ rfl rfl (by norm_num)⟩

/-! ## Claim C3 — backup freshness guard -/

/-- C3: for every existing archive and backup with equal uid: a backup
with strictly smaller `itver` is rejected under `force = false` and the
archive is unchanged; equal `itver` proceeds (with a warning) and
replaces the archive; `force = true` always overwrites. -/
theorem C3_backup_freshness_guard (bc ac : LazyContainer) (old new : Archive)
    (hold : Archive.load_dir ac = .ok old) (hnew : Archive.load_dir bc = .ok new)
    (huid : new.uid = old.uid) :
    (new.itver < old.itver →
      Archive.load_backup (some bc) (some ac) false = (some ac, some .itverOlder)) ∧
    (new.itver = old.itver →
      Archive.load_backup (some bc) (some ac) false = (some bc, none)) ∧
    Archive.load_backup (some bc) (some ac) true = (some bc, none) := by
  simp only [Archive.load_backup]
  rw [hold, hnew]
  refine ⟨?_, ?_, ?_⟩
  · intro hlt
    simp [huid, hlt]
  · intro heq
    simp [huid, heq]
  · simp

/-- Witness for C3: same uid, backup older (itver 3 vs 5) and same-age
(itver 5 vs 5). -/
theorem C3_witness :
    Archive.load_dir (.mk [("uid", .data (.u64 1)), ("itver", .data (.u16 5))])
        = .ok ⟨.mk [("uid", .data (.u64 1)), ("itver", .data (.u16 5))], 1, 5⟩ ∧
      Archive.load_dir (.mk [("uid", .data (.u64 1)), ("itver", .data (.u16 3))])
        = .ok ⟨.mk [("uid", .data (.u64 1)), ("itver", .data (.u16 3))], 1, 3⟩ ∧
      ((3 : Nat) < 5 →
        Archive.load_backup (some (.mk [("uid", .data (.u64 1)), ("itver", .data (.u16 3))]))
          (some (.mk [("uid", .data (.u64 1)), ("itver", .data (.u16 5))])) false
        = (some (.mk [("uid", .data (.u64 1)), ("itver", .data (.u16 5))]), some .itverOlder)) ∧
      Archive.load_backup (some (.mk [("uid", .data (.u64 1)), ("itver", .data (.u16 3))]))
        (some (.mk [("uid", .data (.u64 1)), ("itver", .data (.u16 5))])) true
      = (some (.mk [("uid", .data (.u64 1)), ("itver", .data (.u16 3))]), none) := by
  have h := C3_backup_freshness_guard
    (.mk [("uid", .data (.u64 1)), ("itver", .data (.u16 3))])
    (.mk [("uid", .data (.u64 1)), ("itver", .data (.u16 5))])
    ⟨.mk [("uid", .data (.u64 1)), ("itver", .data (.u16 5))], 1, 5⟩
    ⟨.mk [("uid", .data (.u64 1)), ("itver", .data (.u16 3))], 1, 3⟩
    rfl rfl rfl
  exact ⟨rfl, rfl, fun _ => h.1 (by norm_num), h.2.2⟩

/-! ## The commit protocol and itver -/

theorem commit_crash_case (db dbX : LazyContainer) (wX w' : World) (out : CommitOutcome)
    (e : CommitError) (hc : (wX, CommitOutcome.crashed e) = (w', out))
    (hX : wX.archive = some dbX)
    (hread : read_data dbX "itver" = read_data db "itver") (itver : Nat) :
    (out = .ok → ∃ db', w'.archive = some db' ∧
      read_data db' "itver" = .ok (.u16 ((itver + 1) % 65536))) ∧
    (out ≠ .ok → ∃ db', w'.archive = some db' ∧
      read_data db' "itver" = read_data db "itver") := by
  cases hc
  exact ⟨fun h => CommitOutcome.noConfusion h, fun _ => ⟨dbX, hX, hread⟩⟩

theorem commit_ok_case (db dbX : LazyContainer) (wX w' : World) (out : CommitOutcome)
    (itver : Nat) (hc : (wX, CommitOutcome.ok) = (w', out))
    (hX : wX.archive = some (write_data dbX "itver" (.u16 ((itver + 1) % 65536)))) :
    (out = .ok → ∃ db', w'.archive = some db' ∧
      read_data db' "itver" = .ok (.u16 ((itver + 1) % 65536))) ∧
    (out ≠ .ok → ∃ db', w'.archive = some db' ∧
      read_data db' "itver" = read_data db "itver") := by
  cases hc
  exact ⟨fun _ => ⟨_, hX, read_data_write_data_same _ _ _⟩, fun h => absurd rfl h⟩

/-- Whatever a commit does, the persisted itver is `(itver + 1) mod 2^16`
on success and unchanged on any crash. -/
theorem commit_itver_helper (itver : Nat) (config : Option Toml) (fs : List (String × String))
    (ioOk : Bool) (w : World) (db : LazyContainer) (hdb : w.archive = some db)
    (w' : World) (out : CommitOutcome)
    (hc : Archive.commit itver config fs ioOk w = (w', out)) :
    (out = .ok → ∃ db', w'.archive = some db' ∧
      read_data db' "itver" = .ok (.u16 ((itver + 1) % 65536))) ∧
    (out ≠ .ok → ∃ db', w'.archive = some db' ∧
      read_data db' "itver" = read_data db "itver") := by
  obtain ⟨oa, ob⟩ := w
  replace hdb : oa = some db := hdb
  subst hdb
  cases config with
  | none => exact commit_crash_case db db _ w' out .configMissing hc rfl rfl itver
  | some table =>
    cases ioOk with
    | false => exact commit_crash_case db db _ w' out .backupFailed hc rfl rfl itver
    | true =>
      simp only [Archive.commit, Archive.backup] at hc
      cases hg : table.get "is-moc" with
      | none =>
        rw [hg] at hc
        rcases hen : Entry.new table (new_container db "entries") fs with ⟨r, entries'⟩
        rw [hen] at hc
        cases r with
        | error e =>
          exact commit_crash_case db _ _ w' out e hc rfl
            (read_data_write_child_ne _ _ _ _ (by decide)) itver
        | ok entry =>
          rcases hp : list.push (.str entry.uid)
              (new_container (new_container (write_child db "entries" entries') "order")
                "unsorted") with pr
          cases pr with
          | error e =>
            simp only [hp] at hc
            exact commit_crash_case db _ _ w' out (.storage e) hc rfl
              (read_data_write_child_ne _ _ _ _ (by decide)) itver
          | ok uns' =>
            simp only [hp] at hc
            exact commit_ok_case db _ _ w' out itver hc rfl
      | some v =>
        rw [hg] at hc
        cases hb : v.as_bool with
        | none =>
          simp only [hb] at hc
          exact commit_crash_case db db _ w' out
            (.validation "is-moc attribute of config file must be boolean") hc rfl rfl itver
        | some b =>
          simp only [hb] at hc
          cases b with
          | true =>
            rcases hmn : MOC.new table (new_container db "mocs") with ⟨r, mocs'⟩
            rw [hmn] at hc
            cases r with
            | error e =>
              exact commit_crash_case db _ _ w' out e hc rfl
                (read_data_write_child_ne _ _ _ _ (by decide)) itver
            | ok m =>
              exact commit_ok_case db _ _ w' out itver hc rfl
          | false =>
            rcases hen : Entry.new table (new_container db "entries") fs with ⟨r, entries'⟩
            rw [hen] at hc
            cases r with
            | error e =>
              exact commit_crash_case db _ _ w' out e hc rfl
                (read_data_write_child_ne _ _ _ _ (by decide)) itver
            | ok entry =>
              rcases hp : list.push (.str entry.uid)
                  (new_container (new_container (write_child db "entries" entries') "order")
                    "unsorted") with pr
              cases pr with
              | error e =>
                simp only [hp] at hc
                exact commit_crash_case db _ _ w' out (.storage e) hc rfl
                  (read_data_write_child_ne _ _ _ _ (by decide)) itver
              | ok uns' =>
                simp only [hp] at hc
                exact commit_ok_case db _ _ w' out itver hc rfl

/-! ## Claim C1 — commit advances the version -/

/-- C1 (amended): a successful commit of a valid record persists an itver
exactly one greater than the itver read at load, provided that itver is
below 65535 (at 65535 the u16 write wraps); any commit that crashes, in
particular on a record failing validation, leaves the archive's persisted
`itver` field unchanged. -/
theorem C1_commit_advances_itver (itver : Nat) (config : Option Toml)
    (fs : List (String × String)) (ioOk : Bool) (w : World) (db : LazyContainer)
    (hdb : w.archive = some db) (w' : World) (out : CommitOutcome)
    (hc : Archive.commit itver config fs ioOk w = (w', out)) :
    (out = .ok → itver < 65535 → ∃ db', w'.archive = some db' ∧
      read_data db' "itver" = .ok (.u16 (itver + 1))) ∧
    (∀ e, out = .crashed e → ∃ db', w'.archive = some db' ∧
      read_data db' "itver" = read_data db "itver") := by
  obtain ⟨h1, h2⟩ := commit_itver_helper itver config fs ioOk w db hdb w' out hc
  constructor
  · intro hok hlt
    obtain ⟨db', ha, hr⟩ := h1 hok
    refine ⟨db', ha, ?_⟩
    rw [hr, Nat.mod_eq_of_lt (by omega)]
  · intro e he
    refine h2 ?_
    rw [he]
    exact fun h => CommitOutcome.noConfusion h

/-- Witness for C1: a commit of a valid MOC record at itver 5 persists 6,
and a commit of a record whose `is-moc` attribute is mistyped leaves the
persisted itver untouched. -/
theorem C1_witness :
    (∃ db', (Archive.commit 5 (some sampleMocConfig) [] true sampleWorld).1.archive = some db' ∧
      read_data db' "itver" = .ok (.u16 6)) ∧
    (∃ db', (Archive.commit 5 (some sampleBadConfig) [] true sampleWorld).1.archive = some db' ∧
      read_data db' "itver" = read_data sampleDb "itver") :=
  ⟨(C1_commit_advances_itver 5 (some sampleMocConfig) [] true sampleWorld sampleDb rfl
      (Archive.commit 5 (some sampleMocConfig) [] true sampleWorld).1
      (Archive.commit 5 (some sampleMocConfig) [] true sampleWorld).2 rfl).1 rfl (by norm_num),
   (C1_commit_advances_itver 5 (some sampleBadConfig) [] true sampleWorld sampleDb rfl
      (Archive.commit 5 (some sampleBadConfig) [] true sampleWorld).1
      (Archive.commit 5 (some sampleBadConfig) [] true sampleWorld).2 rfl).2
     (.validation "is-moc attribute of config file must be boolean") rfl⟩

/-- Counterexample for C1 as stated: at itver 65535 a successful commit
persists 0, which is not one greater than the itver read at load. -/
theorem C1_counterexample :
    (Archive.commit 65535 (some sampleMocConfig) [] true sampleWorldMax).2 = .ok ∧
    ((Archive.commit 65535 (some sampleMocConfig) [] true sampleWorldMax).1.archive.map
        (fun dbF => read_data dbF "itver")) = some (.ok (.u16 0)) ∧
    (Except.ok (LazyData.u16 0) : Except LDBError LazyData) ≠ .ok (.u16 (65535 + 1)) :=
  ⟨rfl, rfl, by simp⟩

/-! ## Claim C6 — the backup step is not best-effort -/

/-- C6 (amended): a failure to produce the backup blocks the commit: when
the backup compile fails, the commit crashes with a backup failure before
parsing or ingesting anything, and the archive tree is untouched. -/
theorem C6_backup_failure_blocks (itver : Nat) (table : Toml) (fs : List (String × String))
    (w : World) (db : LazyContainer) (hdb : w.archive = some db) :
    Archive.commit itver (some table) fs false w
      = ({ w with backupFile := none }, .crashed .backupFailed) := by
  obtain ⟨oa, ob⟩ := w
  replace hdb : oa = some db := hdb
  subst hdb
  rfl

/-- Witness for C6 (amended): the blocked commit on the sample world. -/
theorem C6_witness :
    Archive.commit 5 (some sampleMocConfig) [] false sampleWorld
      = ({ sampleWorld with backupFile := none }, .crashed .backupFailed) :=
  C6_backup_failure_blocks 5 sampleMocConfig [] sampleWorld sampleDb rfl

/-- Counterexample for C6 as stated: the very same valid record commits
cleanly when the backup compile succeeds and crashes when it fails, so a
backup failure does block the commit. -/
theorem C6_counterexample :
    (Archive.commit 5 (some sampleMocConfig) [] false sampleWorld).2
        = .crashed .backupFailed ∧
      (Archive.commit 5 (some sampleMocConfig) [] true sampleWorld).2 = .ok ∧
      (CommitOutcome.crashed .backupFailed ≠ .ok) :=
  ⟨rfl, rfl, by decide⟩

/-! ## Claim C10 — itver is written in u16 arithmetic -/

/-- C10: the itver written back by a successful commit is the loaded
itver plus one in u16 arithmetic, `(itver + 1) mod 2^16`; in particular a
commit at itver 65535 persists 0, so monotonic increase fails at the
16-bit wrap point. -/
theorem C10_commit_itver_u16 (itver : Nat) (config : Option Toml)
    (fs : List (String × String)) (ioOk : Bool) (w : World) (db : LazyContainer)
    (hdb : w.archive = some db) (w' : World) (out : CommitOutcome)
    (hc : Archive.commit itver config fs ioOk w = (w', out)) :
    (out = .ok → ∃ db', w'.archive = some db' ∧
      read_data db' "itver" = .ok (.u16 ((itver + 1) % 65536))) ∧
    (itver = 65535 → out = .ok → ∃ db', w'.archive = some db' ∧
      read_data db' "itver" = .ok (.u16 0)) := by
  obtain ⟨h1, _⟩ := commit_itver_helper itver config fs ioOk w db hdb w' out hc
  refine ⟨h1, ?_⟩
  intro hmax hok
  obtain ⟨db', ha, hr⟩ := h1 hok
  refine ⟨db', ha, ?_⟩
  rw [hr, hmax]

/-- Witness for C10: a successful commit at itver 65535 persists 0. -/
theorem C10_witness :
    (∃ db', (Archive.commit 65535 (some sampleMocConfig) [] true sampleWorldMax).1.archive
        = some db' ∧
      read_data db' "itver" = .ok (.u16 ((65535 + 1) % 65536))) ∧
    (∃ db', (Archive.commit 65535 (some sampleMocConfig) [] true sampleWorldMax).1.archive
        = some db' ∧
      read_data db' "itver" = .ok (.u16 0)) :=
  ⟨(C10_commit_itver_u16 65535 (some sampleMocConfig) [] true sampleWorldMax sampleDbMax rfl
      (Archive.commit 65535 (some sampleMocConfig) [] true sampleWorldMax).1
      (Archive.commit 65535 (some sampleMocConfig) [] true sampleWorldMax).2 rfl).1 rfl,
   (C10_commit_itver_u16 65535 (some sampleMocConfig) [] true sampleWorldMax sampleDbMax rfl
      (Archive.commit 65535 (some sampleMocConfig) [] true sampleWorldMax).1
      (Archive.commit 65535 (some sampleMocConfig) [] true sampleWorldMax).2 rfl).2 rfl rfl⟩

/-! ## Store-lazy write/frame lemmas -/

theorem new_container_write_data_ne (c : LazyContainer) (k k' : String) (d : LazyData)
    (h : k' ≠ k) : new_container (write_data c k d) k' = new_container c k' := by
  unfold new_container
  rw [child_container_write_data_ne _ _ _ _ h]

theorem new_container_write_child_ne (c : LazyContainer) (k k' : String) (sub : LazyContainer)
    (h : k' ≠ k) : new_container (write_child c k sub) k' = new_container c k' := by
  unfold new_container
  rw [child_container_write_child_ne _ _ _ _ h]

/-- The element codec used for all string lists round-trips. -/
theorem read_write_strings (l : List String) (c : LazyContainer) (h : l.length < 65536) :
    list.read collect_string (list.write l LazyData.str c) = .ok l := by
  rw [read_write LazyData.str collect_string (fun a => rfl) l c, Nat.mod_eq_of_lt h,
    List.take_length]

theorem MOC_store_title_some (m : MOC) (x : String) (hx : m.title = some x) :
    read_data m.store_lazy "title" = .ok (.str x) := by
  obtain ⟨c, uid, t, d, n, tg, col⟩ := m
  replace hx : t = some x := hx
  subst hx
  simp only [MOC.store_lazy]
  cases d <;> cases n <;> cases tg <;>
    simp [read_data_write_data_same, read_data_write_data_ne, read_data_write_child_ne]

theorem MOC_store_title_none (m : MOC) (hx : m.title = none) :
    read_data m.store_lazy "title" = read_data m.container "title" := by
  obtain ⟨c, uid, t, d, n, tg, col⟩ := m
  replace hx : t = none := hx
  subst hx
  simp only [MOC.store_lazy]
  cases d <;> cases n <;> cases tg <;>
    simp [read_data_write_data_ne, read_data_write_child_ne]

theorem MOC_store_description_some (m : MOC) (x : String) (hx : m.description = some x) :
    read_data m.store_lazy "description" = .ok (.str x) := by
  obtain ⟨c, uid, t, d, n, tg, col⟩ := m
  replace hx : d = some x := hx
  subst hx
  simp only [MOC.store_lazy]
  cases t <;> cases n <;> cases tg <;>
    simp [read_data_write_data_same, read_data_write_data_ne, read_data_write_child_ne]

theorem MOC_store_description_none (m : MOC) (hx : m.description = none) :
    read_data m.store_lazy "description" = read_data m.container "description" := by
  obtain ⟨c, uid, t, d, n, tg, col⟩ := m
  replace hx : d = none := hx
  subst hx
  simp only [MOC.store_lazy]
  cases t <;> cases n <;> cases tg <;>
    simp [read_data_write_data_ne, read_data_write_child_ne]

theorem MOC_store_notes_some (m : MOC) (x : List String) (hx : m.notes = some x) :
    child_container m.store_lazy "notes"
      = .ok (list.write x LazyData.str (new_container m.container "notes")) := by
  obtain ⟨c, uid, t, d, n, tg, col⟩ := m
  replace hx : n = some x := hx
  subst hx
  simp only [MOC.store_lazy]
  cases t <;> cases d <;> cases tg <;>
    simp [child_container_write_child_same, child_container_write_child_ne,
      child_container_write_data_ne, new_container_write_data_ne]

theorem MOC_store_notes_none (m : MOC) (hx : m.notes = none) :
    child_container m.store_lazy "notes" = child_container m.container "notes" := by
  obtain ⟨c, uid, t, d, n, tg, col⟩ := m
  replace hx : n = none := hx
  subst hx
  simp only [MOC.store_lazy]
  cases t <;> cases d <;> cases tg <;>
    simp [child_container_write_child_ne, child_container_write_data_ne]

theorem MOC_store_tags_some (m : MOC) (x : List String) (hx : m.tags = some x) :
    child_container m.store_lazy "tags"
      = .ok (list.write x LazyData.str (new_container m.container "tags")) := by
  obtain ⟨c, uid, t, d, n, tg, col⟩ := m
  replace hx : tg = some x := hx
  subst hx
  simp only [MOC.store_lazy]
  cases t <;> cases d <;> cases n <;>
    simp [child_container_write_child_same, child_container_write_child_ne,
      child_container_write_data_ne, new_container_write_data_ne, new_container_write_child_ne]

theorem MOC_store_tags_none (m : MOC) (hx : m.tags = none) :
    child_container m.store_lazy "tags" = child_container m.container "tags" := by
  obtain ⟨c, uid, t, d, n, tg, col⟩ := m
  replace hx : tg = none := hx
  subst hx
  simp only [MOC.store_lazy]
  cases t <;> cases d <;> cases n <;>
    simp [child_container_write_child_ne, child_container_write_data_ne]

theorem MOC_store_collections_untouched (m : MOC) :
    child_container m.store_lazy "collections" = child_container m.container "collections" := by
  obtain ⟨c, uid, t, d, n, tg, col⟩ := m
  simp only [MOC.store_lazy]
  cases t <;> cases d <;> cases n <;> cases tg <;>
    simp [child_container_write_child_ne, child_container_write_data_ne]

theorem Section_store_title_some (s : Section) (x : String) (hx : s.title = some x) :
    read_data s.store_lazy "title" = .ok (.str x) := by
  obtain ⟨c, t, n, ct⟩ := s
  replace hx : t = some x := hx
  subst hx
  simp only [Section.store_lazy]
  cases ct <;> cases n <;>
    simp [read_data_write_data_same, read_data_write_data_ne, read_data_write_child_ne]

theorem Section_store_title_none (s : Section) (hx : s.title = none) :
    read_data s.store_lazy "title" = read_data s.container "title" := by
  obtain ⟨c, t, n, ct⟩ := s
  replace hx : t = none := hx
  subst hx
  simp only [Section.store_lazy]
  cases ct <;> cases n <;>
    simp [read_data_write_data_ne, read_data_write_child_ne]

theorem Section_store_content_some (s : Section) (x : String) (hx : s.content = some x) :
    read_data s.store_lazy "content" = .ok (.str x) := by
  obtain ⟨c, t, n, ct⟩ := s
  replace hx : ct = some x := hx
  subst hx
  simp only [Section.store_lazy]
  cases t <;> cases n <;>
    simp [read_data_write_data_same, read_data_write_data_ne, read_data_write_child_ne]

theorem Section_store_content_none (s : Section) (hx : s.content = none) :
    read_data s.store_lazy "content" = read_data s.container "content" := by
  obtain ⟨c, t, n, ct⟩ := s
  replace hx : ct = none := hx
  subst hx
  simp only [Section.store_lazy]
  cases t <;> cases n <;>
    simp [read_data_write_data_ne, read_data_write_child_ne]

theorem Section_store_notes_some (s : Section) (x : List String) (hx : s.notes = some x) :
    child_container s.store_lazy "notes"
      = .ok (list.write x LazyData.str (new_container s.container "notes")) := by
  obtain ⟨c, t, n, ct⟩ := s
  replace hx : n = some x := hx
  subst hx
  simp only [Section.store_lazy]
  cases t <;> cases ct <;>
    simp [child_container_write_child_same, child_container_write_data_ne,
      new_container_write_data_ne]

theorem Section_store_notes_none (s : Section) (hx : s.notes = none) :
    child_container s.store_lazy "notes" = child_container s.container "notes" := by
  obtain ⟨c, t, n, ct⟩ := s
  replace hx : n = none := hx
  subst hx
  simp only [Section.store_lazy]
  cases t <;> cases ct <;>
    simp [child_container_write_data_ne]

/-! ## Claim C7 — store writes exactly the cached scalar/list attributes -/

/-- C7 (amended): `store_lazy` writes every currently cached scalar/list
attribute back to the container (title, description, notes, tags for a
MOC; title, content, notes for a Section) and leaves every unloaded
attribute untouched in storage; the `collections` sub-structure cache of
a MOC, however, is never written back by `store_lazy`.  List read-backs
assume the list is shorter than 2^16 (the codec's length field). -/
theorem C7_store_lazy_partial_write (m : MOC) (s : Section) :
    (∀ x, m.title = some x → read_data m.store_lazy "title" = .ok (.str x)) ∧
    (m.title = none → read_data m.store_lazy "title" = read_data m.container "title") ∧
    (∀ x, m.description = some x → read_data m.store_lazy "description" = .ok (.str x)) ∧
    (m.description = none →
      read_data m.store_lazy "description" = read_data m.container "description") ∧
    (∀ x, m.notes = some x → x.length < 65536 → ∃ nc,
      child_container m.store_lazy "notes" = .ok nc ∧ list.read collect_string nc = .ok x) ∧
    (m.notes = none → child_container m.store_lazy "notes" = child_container m.container "notes") ∧
    (∀ x, m.tags = some x → x.length < 65536 → ∃ tc,
      child_container m.store_lazy "tags" = .ok tc ∧ list.read collect_string tc = .ok x) ∧
    (m.tags = none → child_container m.store_lazy "tags" = child_container m.container "tags") ∧
    (child_container m.store_lazy "collections"
      = child_container m.container "collections") ∧
    (∀ x, s.title = some x → read_data s.store_lazy "title" = .ok (.str x)) ∧
    (s.title = none → read_data s.store_lazy "title" = read_data s.container "title") ∧
    (∀ x, s.content = some x → read_data s.store_lazy "content" = .ok (.str x)) ∧
    (s.content = none → read_data s.store_lazy "content" = read_data s.container "content") ∧
    (∀ x, s.notes = some x → x.length < 65536 → ∃ nc,
      child_container s.store_lazy "notes" = .ok nc ∧ list.read collect_string nc = .ok x) ∧
    (s.notes = none → child_container s.store_lazy "notes" = child_container s.container "notes") :=
  ⟨fun x hx => MOC_store_title_some m x hx,
   fun hx => MOC_store_title_none m hx,
   fun x hx => MOC_store_description_some m x hx,
   fun hx => MOC_store_description_none m hx,
   fun x hx hlen => ⟨_, MOC_store_notes_some m x hx, read_write_strings x _ hlen⟩,
   fun hx => MOC_store_notes_none m hx,
   fun x hx hlen => ⟨_, MOC_store_tags_some m x hx, read_write_strings x _ hlen⟩,
   fun hx => MOC_store_tags_none m hx,
   MOC_store_collections_untouched m,
   fun x hx => Section_store_title_some s x hx,
   fun hx => Section_store_title_none s hx,
   fun x hx => Section_store_content_some s x hx,
   fun hx => Section_store_content_none s hx,
   fun x hx hlen => ⟨_, Section_store_notes_some s x hx, read_write_strings x _ hlen⟩,
   fun hx => Section_store_notes_none s hx⟩

/-- Witness for C7 (amended): concrete cached and unloaded attributes. -/
theorem C7_witness :
    read_data sampleStoreMoc.store_lazy "title" = .ok (.str "T") ∧
    read_data sampleStoreMoc.store_lazy "description"
      = read_data sampleStoreMoc.container "description" ∧
    (∃ nc, child_container sampleStoreMoc.store_lazy "notes" = .ok nc ∧
      list.read collect_string nc = .ok ["n1"]) ∧
    child_container sampleStoreMoc.store_lazy "collections"
      = child_container sampleStoreMoc.container "collections" ∧
    read_data sampleStoreSection.store_lazy "content" = .ok (.str "body") := by
  obtain ⟨h1, h2, _, h4, h5, _, _, _, h9, _, _, s3, _, _, _⟩ :=
    C7_store_lazy_partial_write sampleStoreMoc sampleStoreSection
  exact ⟨h1 "T" rfl, h4 rfl, h5 ["n1"] rfl (by norm_num), h9, s3 "body" rfl⟩

/-- Counterexample for C7 as stated: a MOC whose only cached attribute is
a non-empty collections list writes nothing at all on `store_lazy`, so a
cached attribute is left unwritten. -/
theorem C7_counterexample :
    sampleCachedMoc.collections = some [⟨.mk [], none, none, none⟩] ∧
    sampleCachedMoc.store_lazy = sampleCachedMoc.container ∧
    child_container sampleCachedMoc.store_lazy "collections"
      = .error (.dirNotFound "collections") :=
  ⟨rfl, rfl, rfl⟩

/-! ## Search scanning lemmas -/

theorem MOC_contains_tag_clears (m : MOC) (t : String) (b : Bool) (m' : MOC)
    (h : MOC.contains_tag m t = (.ok b, m')) : m'.tags = none := by
  unfold MOC.contains_tag at h
  rcases htf : m.tags_field with ⟨r, m₁⟩
  rw [htf] at h
  cases r with
  | error e => exact absurd (congrArg Prod.fst h) (by simp)
  | ok ts =>
    have := congrArg Prod.snd h
    simp only at this
    rw [← this]

theorem Entry_contains_tag_clears (e : Entry) (t : String) (b : Bool) (e' : Entry)
    (h : Entry.contains_tag e t = (.ok b, e')) : e'.tags = none := by
  unfold Entry.contains_tag at h
  rcases htf : e.tags_field with ⟨r, e₁⟩
  rw [htf] at h
  cases r with
  | error er => exact absurd (congrArg Prod.fst h) (by simp)
  | ok ts =>
    have := congrArg Prod.snd h
    simp only at this
    rw [← this]

/-- A post-condition established by every successful `contains_tag` call
holds for the entity state left by a successful `matches_all` over a
non-empty tag filter. -/
theorem matches_all_post {α : Type} (S : Searchable α) (P : α → Prop)
    (hS : ∀ e t b e', S.contains_tag e t = (.ok b, e') → P e') :
    ∀ (tags : List String) (e : α) (b : Bool) (e' : α), tags ≠ [] →
      search.matches_all S tags e = (.ok b, e') → P e' := by
  intro tags
  induction tags with
  | nil => intro e b e' h; exact absurd rfl h
  | cons t ts ih =>
    intro e b e' _ hm
    rcases hct : S.contains_tag e t with ⟨r, e₁⟩
    cases r with
    | error er =>
      simp only [search.matches_all, hct] at hm
      exact absurd (congrArg Prod.fst hm) (by simp)
    | ok b₁ =>
      simp only [search.matches_all, hct] at hm
      cases ts with
      | nil =>
        simp only [search.matches_all] at hm
        have he : e₁ = e' := congrArg Prod.snd hm
        exact he ▸ hS e t b₁ e₁ hct
      | cons t₂ ts₂ =>
        rcases hrec : search.matches_all S (t₂ :: ts₂) e₁ with ⟨r', e₂⟩
        rw [hrec] at hm
        cases r' with
        | error er => exact absurd (congrArg Prod.fst hm) (by simp)
        | ok b₂ =>
          have he : e₂ = e' := congrArg Prod.snd hm
          exact he ▸ ih e₁ b₂ e₂ (by simp) hrec

/-- The `matches_any` counterpart of `matches_all_post`. -/
theorem matches_any_post {α : Type} (S : Searchable α) (P : α → Prop)
    (hS : ∀ e t b e', S.contains_tag e t = (.ok b, e') → P e') :
    ∀ (tags : List String) (e : α) (b : Bool) (e' : α), tags ≠ [] →
      search.matches_any S tags e = (.ok b, e') → P e' := by
  intro tags
  induction tags with
  | nil => intro e b e' h; exact absurd rfl h
  | cons t ts ih =>
    intro e b e' _ hm
    rcases hct : S.contains_tag e t with ⟨r, e₁⟩
    cases r with
    | error er =>
      simp only [search.matches_any, hct] at hm
      exact absurd (congrArg Prod.fst hm) (by simp)
    | ok b₁ =>
      simp only [search.matches_any, hct] at hm
      cases ts with
      | nil =>
        simp only [search.matches_any] at hm
        have he : e₁ = e' := congrArg Prod.snd hm
        exact he ▸ hS e t b₁ e₁ hct
      | cons t₂ ts₂ =>
        rcases hrec : search.matches_any S (t₂ :: ts₂) e₁ with ⟨r', e₂⟩
        rw [hrec] at hm
        cases r' with
        | error er => exact absurd (congrArg Prod.fst hm) (by simp)
        | ok b₂ =>
          have he : e₂ = e' := congrArg Prod.snd hm
          exact he ▸ ih e₁ b₂ e₂ (by simp) hrec

/-- Every entity left behind by a successful strict search over a
non-empty filter satisfies the contains_tag post-condition. -/
theorem search_strict_post {α : Type} (S : Searchable α) (P : α → Prop)
    (hS : ∀ e t b e', S.contains_tag e t = (.ok b, e') → P e')
    (tags : List String) (hne : tags ≠ []) :
    ∀ (es : List α) (uids : List String) (es' : List α),
      search.search_strict S tags es = (.ok uids, es') → ∀ e ∈ es', P e := by
  intro es
  induction es with
  | nil =>
    intro uids es' h e he
    simp only [search.search_strict] at h
    have : ([] : List α) = es' := congrArg Prod.snd h
    rw [← this] at he
    cases he
  | cons e₀ rest ih =>
    intro uids es' h e' he
    rcases hm : search.matches_all S tags e₀ with ⟨r, e₁⟩
    cases r with
    | error er =>
      simp only [search.search_strict, hm] at h
      exact absurd (congrArg Prod.fst h) (by simp)
    | ok b =>
      simp only [search.search_strict, hm] at h
      rcases hrec : search.search_strict S tags rest with ⟨r₂, rest'⟩
      rw [hrec] at h
      cases r₂ with
      | error er => exact absurd (congrArg Prod.fst h) (by simp)
      | ok uids₂ =>
        have hes : e₁ :: rest' = es' := congrArg Prod.snd h
        rw [← hes] at he
        rcases List.mem_cons.mp he with h1 | h1
        · exact h1 ▸ matches_all_post S P hS tags e₀ b e₁ hne hm
        · exact ih uids₂ rest' hrec e' h1

/-- Every entity left behind by a successful loose search over a
non-empty filter satisfies the contains_tag post-condition. -/
theorem search_loose_post {α : Type} (S : Searchable α) (P : α → Prop)
    (hS : ∀ e t b e', S.contains_tag e t = (.ok b, e') → P e')
    (tags : List String) (hne : tags ≠ []) :
    ∀ (es : List α) (uids : List String) (es' : List α),
      search.search S tags es = (.ok uids, es') → ∀ e ∈ es', P e := by
  intro es
  induction es with
  | nil =>
    intro uids es' h e he
    simp only [search.search] at h
    have : ([] : List α) = es' := congrArg Prod.snd h
    rw [← this] at he
    cases he
  | cons e₀ rest ih =>
    intro uids es' h e' he
    rcases hm : search.matches_any S tags e₀ with ⟨r, e₁⟩
    cases r with
    | error er =>
      simp only [search.search, hm] at h
      exact absurd (congrArg Prod.fst h) (by simp)
    | ok b =>
      simp only [search.search, hm] at h
      rcases hrec : search.search S tags rest with ⟨r₂, rest'⟩
      rw [hrec] at h
      cases r₂ with
      | error er => exact absurd (congrArg Prod.fst h) (by simp)
      | ok uids₂ =>
        have hes : e₁ :: rest' = es' := congrArg Prod.snd h
        rw [← hes] at he
        rcases List.mem_cons.mp he with h1 | h1
        · exact h1 ▸ matches_any_post S P hS tags e₀ b e₁ hne hm
        · exact ih uids₂ rest' hrec e' h1

/-! ## Claim C8 — tag search clears the tags cache -/

/-- C8: after a successful `contains_tag` membership test the entity's
tags cache is cleared (both for the MOC implementation in src/src/moc.rs
and for the analogous Entry implementation), and consequently both the
strict and the loose search leave every scanned entity with no cached
tags. -/
theorem C8_contains_tag_clears_cache :
    (∀ (m : MOC) (t : String) (b : Bool) (m' : MOC),
      MOC.contains_tag m t = (.ok b, m') → m'.tags = none) ∧
    (∀ (e : Entry) (t : String) (b : Bool) (e' : Entry),
      Entry.contains_tag e t = (.ok b, e') → e'.tags = none) ∧
    (∀ (tags : List String), tags ≠ [] →
      ∀ (es : List MOC) (uids : List String) (es' : List MOC),
        search.search_strict mocSearchable tags es = (.ok uids, es') →
        ∀ m ∈ es', m.tags = none) ∧
    (∀ (tags : List String), tags ≠ [] →
      ∀ (es : List MOC) (uids : List String) (es' : List MOC),
        search.search mocSearchable tags es = (.ok uids, es') →
        ∀ m ∈ es', m.tags = none) :=
  ⟨MOC_contains_tag_clears, Entry_contains_tag_clears,
   fun tags hne es uids es' h =>
     search_strict_post mocSearchable (fun m => m.tags = none)
       MOC_contains_tag_clears tags hne es uids es' h,
   fun tags hne es uids es' h =>
     search_loose_post mocSearchable (fun m => m.tags = none)
       MOC_contains_tag_clears tags hne es uids es' h⟩

/-- Witness for C8: a concrete membership test and a concrete strict
search, both leaving the scanned MOC with an empty tags cache. -/
theorem C8_witness :
    (MOC.contains_tag sampleTaggedMoc "x").2.tags = none ∧
    (∀ m ∈ (search.search_strict mocSearchable ["x"] [sampleTaggedMoc]).2, m.tags = none) := by
  obtain ⟨h1, _, h3, _⟩ := C8_contains_tag_clears_cache
  constructor
  · exact h1 sampleTaggedMoc "x" true (MOC.contains_tag sampleTaggedMoc "x").2 rfl
  · exact h3 ["x"] (by simp) [sampleTaggedMoc] ["m1"]
      (search.search_strict mocSearchable ["x"] [sampleTaggedMoc]).2 rfl

/-! ## Search semantics over coherent entities -/

theorem MOC_contains_tag_coherent (m : MOC) (ts : List String) (t : String)
    (h : m.stored_tags = .ok ts) (hcoh : m.tags = none ∨ m.tags = some ts) :
    MOC.contains_tag m t = (.ok (ts.contains t), { m with tags := none }) := by
  unfold MOC.contains_tag MOC.tags_field
  rcases hcoh with hc | hc
  · rw [hc]
    unfold MOC.stored_tags at h
    cases hcc : child_container m.container "tags" with
    | error e =>
      rw [hcc] at h
      exact absurd h (by simp)
    | ok tc =>
      rw [hcc] at h
      replace h : list.read collect_string tc = .ok ts := h
      simp only [h]
  · rw [hc]

theorem Entry_contains_tag_coherent (e : Entry) (ts : List String) (t : String)
    (h : e.stored_tags = .ok ts) (hcoh : e.tags = none ∨ e.tags = some ts) :
    Entry.contains_tag e t = (.ok (ts.contains t), { e with tags := none }) := by
  unfold Entry.contains_tag Entry.tags_field
  rcases hcoh with hc | hc
  · rw [hc]
    unfold Entry.stored_tags at h
    cases hcc : child_container e.container "tags" with
    | error er =>
      rw [hcc] at h
      exact absurd h (by simp)
    | ok tc =>
      rw [hcc] at h
      replace h : list.read collect_string tc = .ok ts := h
      simp only [h]
  · rw [hc]

/-- Over an entity whose contains_tag behaves like membership in a fixed
stored tag list, `matches_all` computes AND semantics. -/
theorem matches_all_coherent {α : Type} (S : Searchable α)
    (stored : α → Except LDBError (List String)) (C : α → List String → Prop)
    (hstep : ∀ e ts t, stored e = .ok ts → C e ts →
      ∃ e', S.contains_tag e t = (.ok (ts.contains t), e') ∧ stored e' = .ok ts ∧ C e' ts) :
    ∀ (tags : List String) (e : α) (ts : List String), stored e = .ok ts → C e ts →
      ∃ e', search.matches_all S tags e
          = (.ok (tags.all (fun t => ts.contains t)), e') ∧
        stored e' = .ok ts ∧ C e' ts := by
  intro tags
  induction tags with
  | nil => intro e ts h hC; exact ⟨e, rfl, h, hC⟩
  | cons t tags ih =>
    intro e ts h hC
    obtain ⟨e₁, hct, h₁, hC₁⟩ := hstep e ts t h hC
    obtain ⟨e₂, hrec, h₂, hC₂⟩ := ih e₁ ts h₁ hC₁
    refine ⟨e₂, ?_, h₂, hC₂⟩
    simp only [search.matches_all, hct, hrec]
    simp [List.all_cons]

/-- Over an entity whose contains_tag behaves like membership in a fixed
stored tag list, `matches_any` computes OR semantics. -/
theorem matches_any_coherent {α : Type} (S : Searchable α)
    (stored : α → Except LDBError (List String)) (C : α → List String → Prop)
    (hstep : ∀ e ts t, stored e = .ok ts → C e ts →
      ∃ e', S.contains_tag e t = (.ok (ts.contains t), e') ∧ stored e' = .ok ts ∧ C e' ts) :
    ∀ (tags : List String) (e : α) (ts : List String), stored e = .ok ts → C e ts →
      ∃ e', search.matches_any S tags e
          = (.ok (tags.any (fun t => ts.contains t)), e') ∧
        stored e' = .ok ts ∧ C e' ts := by
  intro tags
  induction tags with
  | nil => intro e ts h hC; exact ⟨e, rfl, h, hC⟩
  | cons t tags ih =>
    intro e ts h hC
    obtain ⟨e₁, hct, h₁, hC₁⟩ := hstep e ts t h hC
    obtain ⟨e₂, hrec, h₂, hC₂⟩ := ih e₁ ts h₁ hC₁
    refine ⟨e₂, ?_, h₂, hC₂⟩
    simp only [search.matches_any, hct, hrec]
    simp [List.any_cons]

/-- Strict search over coherent entities returns exactly the uids of the
entities whose stored tag set contains every filter tag. -/
theorem search_strict_coherent {α : Type} (S : Searchable α)
    (stored : α → Except LDBError (List String)) (C : α → List String → Prop)
    (hstep : ∀ e ts t, stored e = .ok ts → C e ts →
      ∃ e', S.contains_tag e t = (.ok (ts.contains t), e') ∧ stored e' = .ok ts ∧ C e' ts)
    (tags : List String) :
    ∀ (es : List α), (∀ e ∈ es, ∃ ts, stored e = .ok ts ∧ C e ts) →
      ∃ es', search.search_strict S tags es
        = (.ok ((es.filter (fun e =>
            match stored e with
            | .ok ts => tags.all (fun t => ts.contains t)
            | .error _ => false)).map S.get_uid), es') := by
  intro es
  induction es with
  | nil => intro _; exact ⟨[], rfl⟩
  | cons e rest ih =>
    intro hco
    obtain ⟨ts, hst, hC⟩ := hco e (by simp)
    obtain ⟨e₁, hm, _, _⟩ := matches_all_coherent S stored C hstep tags e ts hst hC
    obtain ⟨rest', hrec⟩ := ih (fun x hx => hco x (by simp [hx]))
    refine ⟨e₁ :: rest', ?_⟩
    simp only [search.search_strict, hm, hrec, List.filter_cons, hst]
    cases hb : tags.all (fun t => ts.contains t) <;> simp [hb]

/-- Loose search over coherent entities returns exactly the uids of the
entities whose stored tag set contains at least one filter tag. -/
theorem search_loose_coherent {α : Type} (S : Searchable α)
    (stored : α → Except LDBError (List String)) (C : α → List String → Prop)
    (hstep : ∀ e ts t, stored e = .ok ts → C e ts →
      ∃ e', S.contains_tag e t = (.ok (ts.contains t), e') ∧ stored e' = .ok ts ∧ C e' ts)
    (tags : List String) :
    ∀ (es : List α), (∀ e ∈ es, ∃ ts, stored e = .ok ts ∧ C e ts) →
      ∃ es', search.search S tags es
        = (.ok ((es.filter (fun e =>
            match stored e with
            | .ok ts => tags.any (fun t => ts.contains t)
            | .error _ => false)).map S.get_uid), es') := by
  intro es
  induction es with
  | nil => intro _; exact ⟨[], rfl⟩
  | cons e rest ih =>
    intro hco
    obtain ⟨ts, hst, hC⟩ := hco e (by simp)
    obtain ⟨e₁, hm, _, _⟩ := matches_any_coherent S stored C hstep tags e ts hst hC
    obtain ⟨rest', hrec⟩ := ih (fun x hx => hco x (by simp [hx]))
    refine ⟨e₁ :: rest', ?_⟩
    simp only [search.search, hm, hrec, List.filter_cons, hst]
    cases hb : tags.any (fun t => ts.contains t) <;> simp [hb]

theorem moc_coherent_step : ∀ (m : MOC) (ts : List String) (t : String),
    m.stored_tags = .ok ts → (m.tags = none ∨ m.tags = some ts) →
    ∃ m', MOC.contains_tag m t = (.ok (ts.contains t), m') ∧
      m'.stored_tags = .ok ts ∧ (m'.tags = none ∨ m'.tags = some ts) :=
  fun m ts t h hC =>
    ⟨{ m with tags := none }, MOC_contains_tag_coherent m ts t h hC, h, Or.inl rfl⟩

theorem entry_coherent_step : ∀ (e : Entry) (ts : List String) (t : String),
    e.stored_tags = .ok ts → (e.tags = none ∨ e.tags = some ts) →
    ∃ e', Entry.contains_tag e t = (.ok (ts.contains t), e') ∧
      e'.stored_tags = .ok ts ∧ (e'.tags = none ∨ e'.tags = some ts) :=
  fun e ts t h hC =>
    ⟨{ e with tags := none }, Entry_contains_tag_coherent e ts t h hC, h, Or.inl rfl⟩

/-! ## Claim C9 — export selects the search opposite to the flag -/

/-- C9: `export_md` selects the search function opposite to the `strict`
flag: with `strict = true` the selection applies the loose OR search
(`search::search`), with `strict = false` the strict AND search
(`search::search_strict`), for both entries and MOCs; over tag-coherent
entities the selected uid lists are therefore OR-filtered under
`strict = true` and AND-filtered under `strict = false`. -/
theorem C9_export_md_swaps_search (x : List String) (ms : List MOC) (ens : List Entry)
    (hm : ∀ m ∈ ms, MOC.tags_coherent m) (he : ∀ e ∈ ens, Entry.tags_coherent e) :
    ((∃ ms', export_md_select_mocs true x ms
        = (.ok ((ms.filter (MOC.spec_or_match x)).map MOC.uid), ms')) ∧
     (∃ es', export_md_select_entries true x ens
        = (.ok ((ens.filter (Entry.spec_or_match x)).map Entry.uid), es'))) ∧
    ((∃ ms', export_md_select_mocs false x ms
        = (.ok ((ms.filter (MOC.spec_and_match x)).map MOC.uid), ms')) ∧
     (∃ es', export_md_select_entries false x ens
        = (.ok ((ens.filter (Entry.spec_and_match x)).map Entry.uid), es'))) := by
  refine ⟨⟨?_, ?_⟩, ⟨?_, ?_⟩⟩
  · exact search_loose_coherent mocSearchable MOC.stored_tags
      (fun m ts => m.tags = none ∨ m.tags = some ts) moc_coherent_step x ms
      (fun m hmem => hm m hmem)
  · exact search_loose_coherent entrySearchable Entry.stored_tags
      (fun e ts => e.tags = none ∨ e.tags = some ts) entry_coherent_step x ens
      (fun e hmem => he e hmem)
  · exact search_strict_coherent mocSearchable MOC.stored_tags
      (fun m ts => m.tags = none ∨ m.tags = some ts) moc_coherent_step x ms
      (fun m hmem => hm m hmem)
  · exact search_strict_coherent entrySearchable Entry.stored_tags
      (fun e ts => e.tags = none ∨ e.tags = some ts) entry_coherent_step x ens
      (fun e hmem => he e hmem)

/-- Witness for C9: a single lazily loaded MOC with stored tag `x`.
Under `strict = true` the selection runs the loose search; under
`strict = false` the strict one. -/
theorem C9_witness :
    (∃ ms', export_md_select_mocs true ["x"] [sampleSearchMoc]
      = (.ok (([sampleSearchMoc].filter (MOC.spec_or_match ["x"])).map MOC.uid), ms')) ∧
    (∃ ms', export_md_select_mocs false ["x"] [sampleSearchMoc]
      = (.ok (([sampleSearchMoc].filter (MOC.spec_and_match ["x"])).map MOC.uid), ms')) := by
  have hco : ∀ m ∈ [sampleSearchMoc], MOC.tags_coherent m := by
    intro m hmem
    rw [List.mem_singleton] at hmem
    subst hmem
    exact ⟨["x"], rfl, Or.inl rfl⟩
  have hent : ∀ e ∈ ([] : List Entry), Entry.tags_coherent e := by
    intro e hmem
    cases hmem
  obtain ⟨⟨h1, _⟩, ⟨h2, _⟩⟩ :=
    C9_export_md_swaps_search ["x"] [sampleSearchMoc] [] hco hent
  exact ⟨h1, h2⟩

end DiaryCli
